import Mathlib

/-!
Verification development for the `multiple-configuration-generation` scenario
generators (`src/generate-config.py` and `src/generate_config_2b.py`).

The scripts are shallowly embedded: every random draw that the code obtains
from a random source (numpy's globally seeded generator, scipy's samplers, or
Python's `random` module used internally by `networkx.watts_strogatz_graph`)
is modelled as an explicit input stream, so each pipeline stage becomes a pure
function of its configuration and of the streams it consumes.  Real-valued
quantities are modelled by `ℚ`.
-/

namespace ConfigGen

/-! ## Identifier derivation

Both scripts derive identifiers with `str(uuid5(namespace, name))` where the
name is either a string literal or an f-string of a fixed literal and a
decimal index (`f"agent_20221019v1_{i}"`).  UUIDv5 is a deterministic function
of `(namespace, name)` and the scripts rely on it being collision free on the
names they use; we model the derived identifier as the pair of the namespace
and the (structured) name, which keeps derivation deterministic and injective
exactly as the code assumes. -/

/-- A Python string that is either a literal or a literal followed by the
decimal rendering of a natural number (the only two shapes of names passed to
`uuid5` in the sources). -/
inductive PyName where
  | lit : String → PyName
  | fmt : String → Nat → PyName
deriving DecidableEq, Repr

/-- Model of `str(uuid5(namespace, name))`: a deterministic identifier derived
from the namespace and the name. -/
structure Uuid where
  ns : String
  name : PyName
deriving DecidableEq, Repr

/-- `uuid5` as used by the scripts: derivation of an identifier from a
namespace constant and a name. -/
def uuid5 (ns : String) (name : PyName) : Uuid := ⟨ns, name⟩

/-! ## Behaviour catalog (both scripts, identical text) -/

/-- `behaviours = ["Walk", "Cycle", "PT", "Drive"]`. -/
def behaviours : List String := ["Walk", "Cycle", "PT", "Drive"]

/-- `behaviour_namespace = UUID("24875ff2-c3ee-449a-85ad-c271bd369caf")`. -/
def behaviour_namespace : String := "24875ff2-c3ee-449a-85ad-c271bd369caf"

/-- `behaviour_uuids = [str(uuid5(behaviour_namespace, b)) for b in behaviours]`. -/
def behaviour_uuids : List Uuid := behaviours.map (fun b => uuid5 behaviour_namespace (.lit b))

/-- The behaviours document (`behaviour_df`): name/uuid pairs, written to
`behaviours.json`. -/
def behaviour_df : List (String × Uuid) := behaviours.zip behaviour_uuids

/-! ## Belief catalog (both scripts, identical text) -/

/-- `belief_namespace = UUID("034d3135-f1f0-441b-a476-9fac37cafc92")`. -/
def belief_namespace : String := "034d3135-f1f0-441b-a476-9fac37cafc92"

/-- The fixed candidate superset of 20 beliefs. -/
def beliefs : List String := [
  "I care about the environment",
  "I want to get to work quickly",
  "I care about the social importance of the car",
  "I want to keep fit",
  "I do not want to perform exercise on my commute",
  "Cycling is hard work",
  "I'm not fit enough to walk",
  "I don't think cycling is cool / fun",
  "Car driving is more convenient",
  "I'm scared of getting hit by a car",
  "My bike might get stolen",
  "Cycling is dangerous",
  "I get to see the environment when I cycle",
  "Walking allows me to experience the environment",
  "I feel unsafe walking",
  "Driving / PT allows me to get to work not sweaty",
  "The traffic is too bad to drive",
  "Driving lets me get to work on time",
  "PT is unreliable",
  "My car is bad"]

/-- `belief_uuids = [str(uuid5(belief_namespace, b)) for b in beliefs]`. -/
def belief_uuids : List Uuid := beliefs.map (fun b => uuid5 belief_namespace (.lit b))

/-! ## Truncated-normal model

`scipy.stats.truncnorm(a, b, loc, scale)` is a frozen distribution whose
support is exactly the interval `[loc + scale * a, loc + scale * b]`: a draw
is `loc + scale * u` for a draw `u` of the standard normal truncated to
`[a, b]`.  We model the frozen distribution by its four parameters and a call
of `.rvs()` by the affine transform applied to the standardized draw `u`
(supplied by the draw stream); the scipy guarantee `a ≤ u ≤ b` becomes a
hypothesis of the theorems. -/

structure TruncNorm where
  a : ℚ
  b : ℚ
  loc : ℚ
  scale : ℚ
deriving DecidableEq, Repr

/-- `truncnorm(a, b, loc=loc, scale=scale)`. -/
def truncnorm (a b loc scale : ℚ) : TruncNorm := ⟨a, b, loc, scale⟩

/-- A call of `.rvs()` on the frozen distribution, with `u` the standardized
truncated draw delivered by scipy (`d.a ≤ u ≤ d.b`). -/
def TruncNorm.rvs (d : TruncNorm) (u : ℚ) : ℚ := d.loc + d.scale * u

/-- `truncn_at_m1_1` from `generate_config_2b.py` (lines 69-79): standardized
truncation bounds `((-1) - location) / scale` and `(1 - location) / scale`. -/
def truncn_at_m1_1 (location scale : ℚ) : TruncNorm :=
  let clip_a : ℚ := -1
  let clip_b : ℚ := 1
  truncnorm ((clip_a - location) / scale) ((clip_b - location) / scale) location scale

/-- The function `n` from `generate-config.py` (lines 102-112).  Its lower
bound is computed as `(clip_a - l) / scale` where `scale` is not the parameter
`s` but a module-level global; the global `scale` is first assigned only at
line 446, after every call of `n` in the script, so the read is modelled by an
`Option ℚ` environment, `none` meaning the name is unbound (a Python
`NameError`). -/
def n (globalScale : Option ℚ) (l s : ℚ) : Option TruncNorm :=
  let clip_a : ℚ := -1
  let clip_b : ℚ := 1
  globalScale.map (fun scale => truncnorm ((clip_a - l) / scale) ((clip_b - l) / s) l s)

/-- The state of the module-level name `scale` of `generate-config.py` at the
point where the perception, relationship and PRS tables are built (lines
117-379): not yet assigned. -/
def scaleGlobalAtTables : Option ℚ := none

/-! ## The hand-authored distribution parameter tables of
`generate_config_2b.py` (lines 84-148, 150-411, 443-504).  Each cell of the
source tables is `truncn_at_m1_1(location, scale)`; the tables below list the
`(location, scale)` pairs cell by cell, in source order, with the Python
float expressions (`0.1 / 3`, `0.05 / 3`, ...) evaluated as rationals. -/

def perceptionParams : List (List (ℚ × ℚ)) := [
  [((3/5), (1/30)), ((7/10), (1/30)), ((2/5), (1/30)), ((-9/10), (1/30))],
  [((-3/10), (1/30)), (0, (1/30)), ((1/10), (1/30)), ((1/2), (1/30))],
  [(0, (1/30)), (0, (1/30)), ((-3/10), (1/30)), ((4/5), (1/30))],
  [((2/5), (1/30)), ((4/5), (1/30)), (0, (1/30)), ((-3/10), (1/30))],
  [((-3/10), (1/30)), ((-3/5), (1/30)), ((1/10), (1/60)), ((1/10), (1/60))],
  [(0, (1/60)), ((-4/5), (1/30)), (0, (1/60)), (0, (1/60))],
  [((-4/5), (1/30)), ((-4/5), (1/30)), ((1/10), (1/60)), ((1/10), (1/60))],
  [(0, (1/60)), ((-1/5), (1/30)), (0, (1/60)), (0, (1/60))],
  [(0, (1/60)), (0, (1/60)), ((-1/10), (1/60)), ((1/2), (1/30))],
  [((-1/5), (1/30)), ((-7/10), (1/30)), (0, (1/60)), (0, (1/60))],
  [(0, (1/60)), ((-1/2), (1/30)), (0, (1/60)), (0, (1/60))],
  [(0, (1/60)), ((-1/2), (1/30)), ((1/5), (1/30)), ((1/5), (1/30))],
  [((1/5), (1/30)), ((7/10), (1/30)), ((-1/10), (1/30)), ((-1/10), (1/30))],
  [((7/10), (1/30)), ((1/5), (1/30)), ((-1/10), (1/30)), ((-1/10), (1/30))],
  [((-1/2), (1/30)), ((-1/10), (1/30)), ((1/10), (1/30)), ((1/10), (1/30))],
  [((-1/10), (1/30)), ((-1/2), (1/30)), ((3/10), (1/30)), ((3/10), (1/30))],
  [((2/5), (1/30)), ((2/5), (1/30)), ((-3/10), (1/30)), ((-9/10), (1/30))],
  [(0, (1/60)), (0, (1/60)), ((-1/10), (1/30)), ((3/5), (1/30))],
  [((3/10), (1/30)), ((3/10), (1/30)), ((-9/10), (1/30)), ((2/5), (1/30))],
  [((1/5), (1/30)), ((1/5), (1/30)), ((1/5), (1/30)), ((-3/10), (1/30))]
]

def relationshipParams : List (List (ℚ × ℚ)) := [
  [(0, (1/30)), ((-1/5), (1/30)), ((-1/5), (1/30)), (0, (1/30)), ((-1/10), (1/30)),
    ((-1/10), (1/30)), (0, (1/30)), ((-1/5), (1/30)), ((-1/10), (1/30)), ((1/5), (1/30)),
    (0, (1/30)), (0, (1/30)), ((2/5), (1/30)), ((2/5), (1/30)), (0, (1/30)),
    ((-1/10), (1/30)), (0, (1/30)), (0, (1/30)), (0, (1/30)), (0, (1/30))],
  [(0, (1/30)), (0, (1/30)), ((1/5), (1/30)), (0, (1/30)), ((1/10), (1/30)),
    ((-1/10), (1/30)), ((1/10), (1/30)), ((3/10), (1/30)), ((1/2), (1/30)), (0, (1/30)),
    ((1/10), (1/30)), ((1/10), (1/30)), (0, (1/30)), (0, (1/30)), (0, (1/30)),
    ((2/5), (1/30)), (0, (1/30)), ((2/5), (1/30)), ((1/5), (1/30)), (0, (1/30))],
  [((-3/10), (1/30)), ((1/5), (1/30)), (0, (1/30)), (0, (1/30)), ((1/5), (1/30)),
    ((1/10), (1/30)), (0, (1/30)), ((1/2), (1/30)), ((3/10), (1/30)), (0, (1/30)),
    ((-1/10), (1/30)), ((-1/10), (1/30)), ((-1/10), (1/30)), ((-1/10), (1/30)), (0, (1/30)),
    ((3/10), (1/30)), ((-1/2), (1/30)), ((3/10), (1/30)), ((3/10), (1/30)), ((-1/5), (1/30))],
  [(0, (1/30)), ((-1/10), (1/30)), ((-1/10), (1/30)), (0, (1/30)), ((-1/2), (1/30)),
    ((-2/5), (1/30)), ((-3/10), (1/30)), ((-1/5), (1/30)), ((-1/10), (1/30)), ((-1/10), (1/30)),
    (0, (1/30)), ((-1/5), (1/30)), ((1/5), (1/30)), ((1/5), (1/30)), ((-1/5), (1/30)),
    ((-2/5), (1/30)), (0, (1/30)), (0, (1/30)), (0, (1/30)), (0, (1/30))],
  [((-1/10), (1/30)), ((1/5), (1/30)), ((1/10), (1/30)), ((-1/2), (1/30)), (0, (1/30)),
    ((2/5), (1/30)), ((3/10), (1/30)), ((3/10), (1/30)), ((3/10), (1/30)), ((1/10), (1/30)),
    ((1/10), (1/30)), ((3/10), (1/30)), ((-1/5), (1/30)), ((-1/5), (1/30)), ((1/10), (1/30)),
    ((1/2), (1/30)), (0, (1/30)), ((3/10), (1/30)), (0, (1/30)), (0, (1/30))],
  [((-1/5), (1/30)), ((1/5), (1/30)), ((1/5), (1/30)), ((-1/5), (1/30)), ((1/5), (1/30)),
    (0, (1/30)), ((1/10), (1/30)), ((1/5), (1/30)), ((3/10), (1/30)), (0, (1/30)),
    ((1/10), (1/30)), ((1/5), (1/30)), ((-1/10), (1/30)), (0, (1/30)), (0, (1/30)),
    ((1/2), (1/30)), (0, (1/30)), ((1/5), (1/30)), (0, (1/30)), (0, (1/30))],
  [(0, (1/30)), ((1/10), (1/30)), ((1/10), (1/30)), (0, (1/30)), ((1/2), (1/30)),
    ((1/2), (1/30)), (0, (1/30)), (0, (1/30)), ((1/5), (1/30)), (0, (1/30)),
    (0, (1/30)), (0, (1/30)), (0, (1/30)), ((-1/10), (1/30)), ((-1/10), (1/30)),
    ((1/5), (1/30)), (0, (1/30)), ((1/10), (1/30)), (0, (1/30)), (0, (1/30))],
  [((-1/5), (1/30)), ((1/5), (1/30)), ((1/5), (1/30)), ((-1/10), (1/30)), ((1/10), (1/30)),
    ((1/2), (1/30)), (0, (1/30)), (0, (1/30)), ((2/5), (1/30)), ((3/10), (1/30)),
    ((3/10), (1/30)), ((2/5), (1/30)), ((-1/2), (1/30)), (0, (1/30)), (0, (1/30)),
    ((2/5), (1/30)), (0, (1/30)), ((3/10), (1/30)), (0, (1/30)), (0, (1/30))],
  [((-1/5), (1/30)), ((2/5), (1/30)), ((3/10), (1/30)), ((-1/10), (1/30)), ((1/5), (1/30)),
    ((1/5), (1/30)), ((1/10), (1/30)), ((1/5), (1/30)), (0, (1/30)), (0, (1/30)),
    ((1/10), (1/30)), ((1/10), (1/30)), ((-1/5), (1/30)), ((-1/5), (1/30)), ((1/10), (1/30)),
    ((2/5), (1/30)), (0, (1/30)), ((1/2), (1/30)), ((-3/10), (1/30)), ((-3/10), (1/30))],
  [(0, (1/30)), ((1/10), (1/30)), (0, (1/30)), (0, (1/30)), ((1/10), (1/30)),
    (0, (1/30)), (0, (1/30)), ((1/10), (1/30)), ((3/10), (1/30)), (0, (1/30)),
    ((1/10), (1/30)), ((3/5), (1/30)), ((-1/5), (1/30)), ((-1/5), (1/30)), ((3/5), (1/30)),
    (0, (1/30)), (0, (1/30)), (0, (1/30)), (0, (1/30)), (0, (1/30))],
  [(0, (1/30)), ((1/10), (1/30)), ((1/10), (1/30)), (0, (1/30)), ((1/10), (1/30)),
    (0, (1/30)), (0, (1/30)), ((1/10), (1/30)), ((1/5), (1/30)), (0, (1/30)),
    (0, (1/30)), (0, (1/30)), (0, (1/30)), (0, (1/30)), (0, (1/30)),
    (0, (1/30)), (0, (1/30)), (0, (1/30)), (0, (1/30)), (0, (1/30))],
  [(0, (1/30)), (0, (1/30)), ((1/10), (1/30)), (0, (1/30)), (0, (1/30)),
    (0, (1/30)), (0, (1/30)), ((3/10), (1/30)), ((1/10), (1/30)), ((3/5), (1/30)),
    (0, (1/30)), (0, (1/30)), ((-3/10), (1/30)), (0, (1/30)), ((1/10), (1/30)),
    (0, (1/30)), (0, (1/30)), (0, (1/30)), (0, (1/30)), (0, (1/30))],
  [((1/2), (1/30)), ((-1/5), (1/30)), ((-3/10), (1/30)), ((1/10), (1/30)), ((-1/10), (1/30)),
    ((-1/2), (1/30)), (0, (1/30)), ((-1/2), (1/30)), ((-1/10), (1/30)), ((-1/5), (1/30)),
    ((-1/10), (1/30)), ((-1/5), (1/30)), (0, (1/30)), ((2/5), (1/30)), ((-1/10), (1/30)),
    ((-1/10), (1/30)), (0, (1/30)), ((-1/10), (1/30)), (0, (1/30)), (0, (1/30))],
  [((1/2), (1/30)), ((-3/10), (1/30)), ((-3/10), (1/30)), ((1/10), (1/30)), ((-1/10), (1/30)),
    ((-1/10), (1/30)), ((-3/10), (1/30)), ((-1/10), (1/30)), ((-1/5), (1/30)), ((-1/5), (1/30)),
    (0, (1/30)), (0, (1/30)), ((2/5), (1/30)), (0, (1/30)), ((-1/2), (1/30)),
    (0, (1/30)), (0, (1/30)), (0, (1/30)), (0, (1/30)), (0, (1/30))],
  [(0, (1/30)), ((1/10), (1/30)), (0, (1/30)), (0, (1/30)), ((1/5), (1/30)),
    (0, (1/30)), (0, (1/30)), ((3/10), (1/30)), ((3/10), (1/30)), ((3/5), (1/30)),
    (0, (1/30)), ((1/2), (1/30)), ((-1/5), (1/30)), ((-2/5), (1/30)), (0, (1/30)),
    (0, (1/30)), (0, (1/30)), (0, (1/30)), (0, (1/30)), (0, (1/30))],
  [((-3/10), (1/30)), ((2/5), (1/30)), ((2/5), (1/30)), ((-3/10), (1/30)), ((3/5), (1/30)),
    ((2/5), (1/30)), ((1/5), (1/30)), ((2/5), (1/30)), ((1/2), (1/30)), (0, (1/30)),
    (0, (1/30)), (0, (1/30)), ((-3/10), (1/30)), ((-3/10), (1/30)), (0, (1/30)),
    (0, (1/30)), (0, (1/30)), (0, (1/30)), (0, (1/30)), (0, (1/30))],
  [(0, (1/30)), ((3/10), (1/30)), (0, (1/30)), (0, (1/30)), (0, (1/30)),
    (0, (1/30)), (0, (1/30)), (0, (1/30)), (0, (1/30)), (0, (1/30)),
    (0, (1/30)), (0, (1/30)), (0, (1/30)), (0, (1/30)), (0, (1/30)),
    (0, (1/30)), (0, (1/30)), (0, (1/30)), (0, (1/30)), ((1/10), (1/30))],
  [((-3/10), (1/30)), ((3/5), (1/30)), ((3/10), (1/30)), ((-1/5), (1/30)), ((2/5), (1/30)),
    ((3/10), (1/30)), ((1/10), (1/30)), ((3/10), (1/30)), ((3/5), (1/30)), (0, (1/30)),
    ((1/10), (1/30)), ((1/10), (1/30)), ((-3/10), (1/30)), ((-3/10), (1/30)), (0, (1/30)),
    ((2/5), (1/30)), ((-1/2), (1/30)), (0, (1/30)), ((2/5), (1/30)), ((-1/5), (1/30))],
  [((-1/10), (1/30)), ((3/5), (1/30)), ((1/2), (1/30)), (0, (1/30)), (0, (1/30)),
    (0, (1/30)), (0, (1/30)), (0, (1/30)), ((2/5), (1/30)), (0, (1/30)),
    (0, (1/30)), (0, (1/30)), ((1/10), (1/30)), ((1/10), (1/30)), (0, (1/30)),
    (0, (1/30)), ((1/10), (1/30)), ((2/5), (1/30)), (0, (1/30)), (0, (1/30))],
  [(0, (1/30)), ((1/5), (1/30)), ((1/5), (1/30)), (0, (1/30)), (0, (1/30)),
    (0, (1/30)), (0, (1/30)), (0, (1/30)), ((-1/10), (1/30)), (0, (1/30)),
    (0, (1/30)), (0, (1/30)), (0, (1/30)), (0, (1/30)), (0, (1/30)),
    (0, (1/30)), (0, (1/30)), (0, (1/30)), (0, (1/30)), (0, (1/30))]
]

def prsParams : List (List (ℚ × ℚ)) := [
  [((3/5), (1/30)), ((7/10), (1/30)), ((2/5), (1/30)), ((-9/10), (1/30))],
  [((-3/10), (1/30)), (0, (1/30)), ((1/10), (1/30)), ((1/2), (1/30))],
  [(0, (1/30)), (0, (1/30)), ((-3/10), (1/30)), ((4/5), (1/30))],
  [((2/5), (1/30)), ((4/5), (1/30)), (0, (1/30)), ((-3/10), (1/30))],
  [((-3/10), (1/30)), ((-3/5), (1/30)), ((1/10), (1/60)), ((1/10), (1/60))],
  [(0, (1/60)), ((-4/5), (1/30)), (0, (1/60)), (0, (1/60))],
  [((-4/5), (1/30)), ((-4/5), (1/30)), ((1/10), (1/60)), ((1/10), (1/60))],
  [(0, (1/60)), ((-1/5), (1/30)), (0, (1/60)), (0, (1/60))],
  [(0, (1/60)), (0, (1/60)), ((-1/10), (1/60)), ((1/2), (1/30))],
  [((-1/5), (1/30)), ((-7/10), (1/30)), (0, (1/60)), (0, (1/60))],
  [(0, (1/60)), ((-1/2), (1/30)), (0, (1/60)), (0, (1/60))],
  [(0, (1/60)), ((-1/2), (1/30)), ((1/5), (1/30)), ((1/5), (1/30))],
  [((1/5), (1/30)), ((7/10), (1/30)), ((-1/10), (1/30)), ((-1/10), (1/30))],
  [((7/10), (1/30)), ((1/5), (1/30)), ((-1/10), (1/30)), ((-1/10), (1/30))],
  [((-1/2), (1/30)), ((-1/10), (1/30)), ((1/10), (1/30)), ((1/10), (1/30))],
  [((-1/10), (1/30)), ((-1/2), (1/30)), ((3/10), (1/30)), ((3/10), (1/30))],
  [((2/5), (1/30)), ((2/5), (1/30)), ((-3/10), (1/30)), ((-9/10), (1/30))],
  [(0, (1/60)), (0, (1/60)), ((-1/10), (1/30)), ((3/5), (1/30))],
  [((3/10), (1/30)), ((3/10), (1/30)), ((-9/10), (1/30)), ((2/5), (1/30))],
  [((1/5), (1/30)), ((1/5), (1/30)), ((1/5), (1/30)), ((-3/10), (1/30))]
]

/-- The perception table: a 20 x 4 array of frozen truncated normals
(`perceptions` in `generate_config_2b.py`). -/
def perceptions : List (List TruncNorm) :=
  perceptionParams.map (List.map (fun p => truncn_at_m1_1 p.1 p.2))

/-- The relationship table: a 20 x 20 array of frozen truncated normals
(`relationships` in `generate_config_2b.py`). -/
def relationships : List (List TruncNorm) :=
  relationshipParams.map (List.map (fun p => truncn_at_m1_1 p.1 p.2))

/-- The PRS table: a 20 x 4 array of frozen truncated normals (`prs_mat` in
`generate_config_2b.py`). -/
def prs_mat : List (List TruncNorm) :=
  prsParams.map (List.map (fun p => truncn_at_m1_1 p.1 p.2))

/-! ## Belief selection -/

/-- `generate_config_2b.py` lines 413-417: `dist_beliefs = [1 for _i in ...]`,
`include_beliefs = np.array([1 for _b in dist_beliefs])` - the include-all
policy: every entry of the mask is truthy. -/
def include_beliefs_2b : List Bool := beliefs.map (fun _ => true)

/-- `np.where(mask)[0]`: the indices of the truthy entries of the mask, in
increasing order. -/
def npWhere (mask : List Bool) : List Nat :=
  (mask.enum.filter (fun p => p.2)).map (fun p => p.1)

/-- Default uuid used for out-of-range list reads (never reached on the index
ranges the scripts use). -/
def noUuid : Uuid := uuid5 "" (.lit "")

/-- `belief_uuids[i]`. -/
def beliefUuidAt (i : Nat) : Uuid := belief_uuids.getD i noUuid

/-- `behaviour_uuids[j]`. -/
def behaviourUuidAt (j : Nat) : Uuid := behaviour_uuids.getD j noUuid

/-- The uuids of the beliefs included by a mask, in catalog order
(`belief_uuids[np.where(include_beliefs)[0]]`). -/
def includedUuids (mask : List Bool) : List Uuid :=
  (npWhere mask).map beliefUuidAt

/-! ## Weight and activation samplers of `generate_config_2b.py` -/

/-- `w_dist_gen` (lines 544-547): the edge-weight distribution, a truncated
normal with bounds `(0 - 0.5) / 0.15` and `(1 - 0.5) / 0.15`, loc `0.5` and
scale `0.15`. -/
def w_dist_gen : TruncNorm :=
  truncnorm ((0 - 1/2) / (3/20)) ((1 - 1/2) / (3/20)) (1/2) (3/20)

/-- `w_dist = w_dist_gen()` (line 550). -/
def w_dist : TruncNorm := w_dist_gen

/-- `random_activation` (lines 572-579): with the uniform draw `coin` at most
0.5 the activation is exactly 0.0, otherwise it is a truncated-normal draw
with loc 0, scale 0.1 and bounds `(-1 - loc) / scale`, `(1 - loc) / scale`
(standardized draw `u`). -/
def random_activation (coin u : ℚ) : ℚ :=
  if coin ≤ 1/2 then 0
  else
    let loc : ℚ := 0
    let scale : ℚ := 1/10
    (truncnorm ((-1 - loc) / scale) ((1 - loc) / scale) loc scale).rvs u

/-- The scenario-override distribution (line 595): `truncn_at_m1_1(-0.5, 0.15)`. -/
def overrideDist : TruncNorm := truncn_at_m1_1 (-1/2) (15/100)

/-! ## Python dict model

The per-agent friend, delta and activation mappings are Python dicts; we model
a dict as an association list, assignment overwriting the entry in place when
the key exists and appending otherwise. -/

/-- Python dict assignment `d[k] = v`. -/
def dictSet (d : List (Uuid × ℚ)) (k : Uuid) (v : ℚ) : List (Uuid × ℚ) :=
  if d.any (fun p => decide (p.1 = k)) then
    d.map (fun p => if p.1 = k then (k, v) else p)
  else d ++ [(k, v)]

/-- The key list of a dict, in insertion order. -/
def dictKeys (d : List (Uuid × ℚ)) : List Uuid := d.map (fun p => p.1)

/-- Python `k in d`. -/
def hasKey (d : List (Uuid × ℚ)) (k : Uuid) : Bool := d.any (fun p => decide (p.1 = k))

/-- Python dict lookup `d[k]` (total model; the scripts only look up keys that
are present). -/
def dictGet (d : List (Uuid × ℚ)) (k : Uuid) : ℚ :=
  match d.find? (fun p => decide (p.1 = k)) with
  | some p => p.2
  | none => 0

/-! ## Deltas (2b lines 562-565, generate-config lines 436-439) -/

/-- The post-processing of one delta draw: `np.abs(draw) + 0.0001`. -/
def deltaValue (draw : ℚ) : ℚ := |draw| + 1/10000

/-- The location of the normal the deltas are drawn from: `1.0 - 0.001`. -/
def deltaLoc : ℚ := 1 - 1/1000

/-- The scale of the normal the deltas are drawn from. -/
def deltaScale : ℚ := 1/10

/-- The deltas mapping of one agent: one value per included belief, keyed by
the belief uuid (`{belief_uuids[belief_i]: deltas[agent_i, belief_i] for
belief_i in np.where(include_beliefs)[0]}`); `draws b` is the raw normal draw
for belief index `b`. -/
def agentDeltas (mask : List Bool) (draws : Nat → ℚ) : List (Uuid × ℚ) :=
  (npWhere mask).map (fun b => (beliefUuidAt b, deltaValue (draws b)))

/-! ## Activations (2b lines 582-595) -/

/-- The time-step-0 activation dict of one agent before the scenario override:
one `random_activation` per included belief, keyed by the belief uuid. -/
def agentActivations0 (mask : List Bool) (coins draws : Nat → ℚ) : List (Uuid × ℚ) :=
  (npWhere mask).map (fun b => (beliefUuidAt b, random_activation (coins b) (draws b)))

/-- The scenario override (lines 592-595): with the uniform draw at most 0.4
the activation of belief index 11 ("Cycling is dangerous") is overwritten by a
`truncn_at_m1_1(-0.5, 0.15)` draw. -/
def applyOverride (d : List (Uuid × ℚ)) (coin u : ℚ) : List (Uuid × ℚ) :=
  if coin ≤ 4/10 then dictSet d (beliefUuidAt 11) (overrideDist.rvs u) else d

/-- The final time-step-0 activation dict of one agent. -/
def agentActivations (mask : List Bool) (coins draws : Nat → ℚ) (ocoin ou : ℚ) :
    List (Uuid × ℚ) :=
  applyOverride (agentActivations0 mask coins draws) ocoin ou

/-! ## PRS document (2b lines 506-512) -/

structure PrsEntry where
  beliefUuid : Uuid
  behaviourUuid : Uuid
  value : ℚ
deriving DecidableEq, Repr

/-- Cell `(i, j)` of the PRS table `prs_mat`. -/
def prsCell (i j : Nat) : TruncNorm := (prs_mat.getD i []).getD j (truncnorm 0 0 0 0)

/-- The prs document: one entry per included belief index and behaviour index,
`{"beliefUuid": ..., "behaviourUuid": ..., "value": prs_mat[i, j].rvs()}`;
`draws i j` is the standardized draw for the cell. -/
def prsDoc (mask : List Bool) (draws : Nat → Nat → ℚ) : List PrsEntry :=
  (npWhere mask).flatMap (fun i =>
    (List.range 4).map (fun j =>
      ⟨beliefUuidAt i, behaviourUuidAt j, (prsCell i j).rvs (draws i j)⟩))

/-! ## Initial actions (2b lines 600-629) -/

/-- `np.argmax` over one row: the index of the first occurrence of the maximal
value (numpy resolves ties to the first occurrence). -/
def npArgmax (l : List ℚ) : Nat :=
  match l.maximum with
  | none => 0
  | some m => l.findIdx (fun y => decide (m ≤ y))

/-- One row of `np.dot(activations, prs)`: entry `j` is the dot product of the
activation vector with column `j` of the matrix. -/
def dotRow (act : List ℚ) (mat : List (List ℚ)) (ncols : Nat) : List ℚ :=
  (List.range ncols).map (fun j => ((act.zip mat).map (fun p => p.1 * p.2.getD j 0)).sum)

/-- `choose_initial_actions` (lines 600-603): per agent row, the argmax over
the four behaviour scores. -/
def choose_initial_actions (acts : List (List ℚ)) (mat : List (List ℚ)) : List Nat :=
  acts.map (fun row => npArgmax (dotRow row mat 4))

/-- Assignment `m[i][j] = v` on a matrix. -/
def matSet (m : List (List ℚ)) (i j : Nat) (v : ℚ) : List (List ℚ) :=
  m.set i ((m.getD i []).set j v)

/-- `np.where(arr == u)[0][0]`: the first index of `u` in a uuid array. -/
def uuidIdx (l : List Uuid) (u : Uuid) : Nat := l.findIdx (fun x => decide (x = u))

/-- `prs_select_mat` (lines 606-613): a 20 x 4 zero matrix, then one
assignment per prs entry at the positions recovered from the entry's uuids. -/
def prs_select_mat (entries : List PrsEntry) : List (List ℚ) :=
  entries.foldl
    (fun m e =>
      matSet m (uuidIdx belief_uuids e.beliefUuid) (uuidIdx behaviour_uuids e.behaviourUuid) e.value)
    (List.replicate 20 (List.replicate 4 0))

/-- Row selection `m[np.where(mask)[0]]`. -/
def selectRows (m : List (List ℚ)) (mask : List Bool) : List (List ℚ) :=
  (npWhere mask).map (fun i => m.getD i [])

/-- The activation row of one agent as assembled at lines 616-621: the dict
values at the included belief uuids, in catalog order. -/
def activationRowOf (d : List (Uuid × ℚ)) (mask : List Bool) : List ℚ :=
  (includedUuids mask).map (fun u => dictGet d u)

/-! ## Social graph

`networkx.Graph` stores each undirected edge once; we model a graph by its
insertion-ordered edge list (each element one stored orientation of one
undirected edge).  `watts_strogatz_graph` is called with `seed=None` in both
scripts, which makes networkx draw from Python's global `random` module - a
source `np.random.seed` does not touch; those draws are the `PyRng` streams
below. -/

abbrev Edge := Nat × Nat

/-- Whether two oriented pairs denote the same undirected edge. -/
def sameEdge (e f : Edge) : Bool :=
  (e.1 == f.1 && e.2 == f.2) || (e.1 == f.2 && e.2 == f.1)

/-- `G.has_edge(u, v)`. -/
def hasEdge (g : List Edge) (u v : Nat) : Bool := g.any (fun e => sameEdge e (u, v))

/-- `G.add_edge(u, v)`: a no-op when the undirected edge is already stored,
otherwise the oriented pair is appended. -/
def addEdge (g : List Edge) (u v : Nat) : List Edge :=
  if hasEdge g u v then g else g ++ [(u, v)]

/-- `G.remove_edge(u, v)`. -/
def removeEdge (g : List Edge) (u v : Nat) : List Edge :=
  g.filter (fun e => !sameEdge e (u, v))

/-- `G.degree(u)`: the number of edge slots incident to `u` (a self-loop
counts twice); used only in the `>= n - 1` give-up test of the rewiring
loop. -/
def degree (g : List Edge) (u : Nat) : Nat :=
  (g.map (fun e => (if e.1 = u then 1 else 0) + (if e.2 = u then 1 else 0))).sum

/-- The randomness `watts_strogatz_graph(seed=None)` consumes: Python's global
`random` module, modelled as a stream of uniform draws (`seed.random()`) and a
stream of node picks (`seed.choice(nodes)`), each with its own counter.  The
call `np.random.seed(...)` at the top of `generate_config_2b.py` does not seed
these streams. -/
structure PyRng where
  randoms : Nat → ℚ
  choices : Nat → Nat

/-- The pair sequence of the ring lattice: for each offset `j` in `1 .. k/2`,
`(u, nodes[(u + j) % n])` for `u` in node order.  Both the construction loop
and the rewiring loop of networkx iterate exactly this sequence. -/
def latticePairs (nn k : Nat) : List Edge :=
  (List.range' 1 (k / 2)).flatMap (fun j => (List.range nn).map (fun u => (u, (u + j) % nn)))

/-- The ring lattice: the pair sequence added with `add_edge`, in order. -/
def lattice (nn k : Nat) : List Edge :=
  (latticePairs nn k).foldl (fun g e => addEdge g e.1 e.2) []

/-- The rewiring `while` loop: starting from candidate `w`, redraw while
`w == u or G.has_edge(u, w)`, giving up (`break`) as soon as
`G.degree(u) >= n - 1`; the result is the accepted target (`some`: the loop
ended normally, so the `else:` branch rewires) or `none` (break), with the
updated choice counter.  Python's loop is unbounded; the fuel argument covers
every execution examined here, and exhaustion is modelled as giving up. -/
def rewireWhile (rng : PyRng) (g : List Edge) (nn u : Nat) :
    Nat → Nat → Nat → Option Nat × Nat
  | 0, _, ci => (none, ci)
  | fuel + 1, w, ci =>
    if w = u ∨ hasEdge g u w then
      let w2 := rng.choices ci
      if nn - 1 ≤ degree g u then (none, ci + 1)
      else rewireWhile rng g nn u fuel w2 (ci + 1)
    else (some w, ci)

/-- The rewiring state: the graph and the two stream counters. -/
structure WsState where
  graph : List Edge
  ri : Nat
  ci : Nat

/-- One iteration of the rewiring loop at lattice pair `(u, v)`:
`if seed.random() < p:` draw `w = seed.choice(nodes)`, run the `while` loop,
and on its normal exit `G.remove_edge(u, v); G.add_edge(u, w)`. -/
def rewireStep (rng : PyRng) (nn : Nat) (p : ℚ) (st : WsState) (e : Edge) : WsState :=
  if rng.randoms st.ri < p then
    match rewireWhile rng st.graph nn e.1 nn (rng.choices st.ci) (st.ci + 1) with
    | (some w2, ci2) => ⟨addEdge (removeEdge st.graph e.1 e.2) e.1 w2, st.ri + 1, ci2⟩
    | (none, ci2) => ⟨st.graph, st.ri + 1, ci2⟩
  else ⟨st.graph, st.ri + 1, st.ci⟩

/-- `watts_strogatz_graph(n, k, p)` with `seed=None`: the ring lattice, then
the rewiring pass over the same pair sequence. -/
def watts_strogatz_graph (nn k : Nat) (p : ℚ) (rng : PyRng) : List Edge :=
  ((latticePairs nn k).foldl (rewireStep rng nn p) ⟨lattice nn k, 0, 0⟩).graph

/-- 2b lines 534-539: for each agent `i`, with the numpy uniform draw at most
0.8, `network.add_edge(i, i)`. -/
def addSelfLoops (g : List Edge) (nn : Nat) (probs : Nat → ℚ) : List Edge :=
  (List.range nn).foldl (fun g2 i => if probs i ≤ 8/10 then addEdge g2 i i else g2) g

/-- `N_AGENTS = 5000`. -/
def N_AGENTS : Nat := 5000

/-- The friendship graph of one `generate_config_2b.py` run:
`watts_strogatz_graph(n=5000, k=10, p=0.3)` followed by the self-loop pass. -/
def network2b (rng : PyRng) (probs : Nat → ℚ) : List Edge :=
  addSelfLoops (watts_strogatz_graph N_AGENTS 10 (3/10) rng) N_AGENTS probs

/-- 2b lines 552-553: one `w_dist.rvs()` per edge, in edge order; `wdraws i`
is the standardized draw for the i-th edge. -/
def weightedEdges (g : List Edge) (wdraws : Nat → ℚ) : List (Edge × ℚ) :=
  g.enum.map (fun p => (p.2, w_dist.rvs (wdraws p.1)))

/-- `agent_namespace` (both scripts). -/
def agent_namespace : String := "1a9e3ee9-a068-41f8-9f46-a5f684f0101e"

/-- `agent_uuids[i] = str(uuid5(agent_namespace, f"agent_20221019v1_{i}"))`. -/
def agentUuidAt (i : Nat) : Uuid := uuid5 agent_namespace (.fmt "agent_20221019v1_" i)

/-- The friends dict of agent `u` in `generate_config_2b.py` (lines 555-557;
`friends = np.array([{} for _i in range(N_AGENTS)])` - one fresh dict per
agent).  The loop `for u, v, weight in network.edges(data="weight"):
friends[u][agent_uuids[v]] = weight` writes, per iteration, only to the dict
of the edge's first component, so agent `u`'s dict is the fold of the stored
edges whose first component is `u`, in edge order. -/
def friendsOf (wg : List (Edge × ℚ)) (u : Nat) : List (Uuid × ℚ) :=
  (wg.filter (fun p => decide (p.1.1 = u))).foldl
    (fun d p => dictSet d (agentUuidAt p.1.2) p.2) []

/-- The friends construction of `generate-config.py` (lines 429-432):
`friends = np.full(n_agents, {})` broadcasts the SAME dict object into every
cell of the object array, so the loop `friends[edge[0]][agent_uuids[edge[1]]]
= weight` mutates one shared dict whatever `edge[0]` is. -/
def sharedFriendsDict (wg : List (Edge × ℚ)) : List (Uuid × ℚ) :=
  wg.foldl (fun d p => dictSet d (agentUuidAt p.1.2) p.2) []

/-- The mapping `generate-config.py` reports for agent `i`: the shared dict,
independent of `i`. -/
def friendsGenConfig (wg : List (Edge × ℚ)) (_i : Nat) : List (Uuid × ℚ) :=
  sharedFriendsDict wg

/-! ## The full 2b scenario pipeline -/

/-- The numpy-derived draws one run consumes, indexed by purpose.  With
`np.random.seed(543879 + int(SCENARIO_ID))` these streams are functions of the
scenario id alone; the two runs compared in the reproducibility analysis
consume them at identical positions (the graphs of the two runs have the same
edge count, so the draw sequences line up). -/
structure NpInputs where
  percDraws : Nat → Nat → ℚ
  relDraws : Nat → Nat → ℚ
  prsDraws : Nat → Nat → ℚ
  selfProbs : Nat → ℚ
  wdraws : Nat → ℚ
  deltaDraws : Nat → Nat → ℚ
  actCoins : Nat → Nat → ℚ
  actDraws : Nat → Nat → ℚ
  overrideCoins : Nat → ℚ
  overrideDraws : Nat → ℚ

/-- One row of the beliefs document. -/
structure Belief where
  name : String
  uuid : Uuid
  perceptions : List (Uuid × ℚ)
  relationships : List (Uuid × ℚ)
deriving DecidableEq, Repr

/-- The beliefs document (2b lines 419-432): one row per included belief, the
perception dict over all four behaviours, the relationship dict over the
included beliefs. -/
def beliefsDoc (mask : List Bool) (percDraws relDraws : Nat → Nat → ℚ) : List Belief :=
  (npWhere mask).map (fun b =>
    { name := beliefs.getD b ""
      uuid := beliefUuidAt b
      perceptions := (List.range 4).map (fun i =>
        (behaviourUuidAt i,
          ((perceptions.getD b []).getD i (truncnorm 0 0 0 0)).rvs (percDraws b i)))
      relationships := (npWhere mask).map (fun i =>
        (beliefUuidAt i,
          ((relationships.getD b []).getD i (truncnorm 0 0 0 0)).rvs (relDraws b i))) })

/-- One row of the agents document. -/
structure Agent where
  uuid : Uuid
  friends : List (Uuid × ℚ)
  deltas : List (Uuid × ℚ)
  activations : List (Nat × List (Uuid × ℚ))
  actions : List (Nat × Uuid)
deriving DecidableEq, Repr

/-- The four documents of one scenario. -/
structure Scenario where
  behavioursOut : List (String × Uuid)
  beliefsOut : List Belief
  prsOut : List PrsEntry
  agentsOut : List Agent
deriving DecidableEq, Repr

/-- One full `generate_config_2b.py` run, as a function of the numpy-derived
streams and of the unseeded Python-random streams consumed by
`watts_strogatz_graph`. -/
def generateScenario2b (inp : NpInputs) (py : PyRng) : Scenario :=
  let mask := include_beliefs_2b
  let g := network2b py inp.selfProbs
  let wg := weightedEdges g inp.wdraws
  let prsEntries := prsDoc mask inp.prsDraws
  let acts := fun j => agentActivations mask (inp.actCoins j) (inp.actDraws j)
    (inp.overrideCoins j) (inp.overrideDraws j)
  let actMatrix := (List.range N_AGENTS).map (fun j => activationRowOf (acts j) mask)
  let selMat := selectRows (prs_select_mat prsEntries) mask
  let initial_actions := choose_initial_actions actMatrix selMat
  { behavioursOut := behaviour_df
    beliefsOut := beliefsDoc mask inp.percDraws inp.relDraws
    prsOut := prsEntries
    agentsOut := (List.range N_AGENTS).map (fun j =>
      { uuid := agentUuidAt j
        friends := friendsOf wg j
        deltas := agentDeltas mask (inp.deltaDraws j)
        activations := [(0, acts j)]
        actions := [(0, behaviourUuidAt (initial_actions.getD j 0))] }) }

/-! ## The storage flow of `generate-config.py` (upload and cleanup)

The script interleaves four local writes with four `upload_file` calls and
ends with `shutil.rmtree` on the scenario directory.  The S3 client is the
external collaborator; its outcome for each call is an oracle input. -/

/-- A local file path: the scenario output directory and the file name. -/
structure Path where
  dir : String
  file : String
deriving DecidableEq, Repr

/-- What the S3 client does on one upload call: `none` = success, `some e` =
a `ClientError` carrying message `e`. -/
abbrev UploadOutcome := Option String

/-- `upload_file` (`generate-config.py` lines 23-43): the `ClientError` is
caught, logged with `logging.error` and `False` returned; on success `True`.
Result: the boolean and the log messages the call emits. -/
def upload_file (outcome : UploadOutcome) : Bool × List String :=
  match outcome with
  | some e => (false, [e])
  | none => (true, [])

/-- The observable state of one run: local files present, upload results in
call order, and the log. -/
structure RunState where
  files : List Path
  uploads : List Bool
  log : List String
deriving DecidableEq, Repr

/-- A local write of one artifact. -/
def writeFile (st : RunState) (p : Path) : RunState := { st with files := st.files ++ [p] }

/-- One `upload_file` call recorded into the run state; a failure aborts
nothing. -/
def doUpload (st : RunState) (outcome : UploadOutcome) : RunState :=
  let r := upload_file outcome
  { st with uploads := st.uploads ++ [r.1], log := st.log ++ r.2 }

/-- The artifacts `generate-config.py` writes, in write order (lines 63, 327,
389, 523). -/
def artifactNames : List String :=
  ["behaviours.json", "beliefs.json", "prs.json", "agents.json.zst"]

/-- The write/upload phase (lines 63-529): each artifact is written locally
under `output/scenario/<sid>` and then uploaded; `outcomes i` is the S3
outcome of the i-th upload call. -/
def writePhase (sid : String) (outcomes : Nat → UploadOutcome) : RunState :=
  (artifactNames.enum).foldl
    (fun st p => doUpload (writeFile st ⟨"output/scenario/" ++ sid, p.2⟩) (outcomes p.1))
    ⟨[], [], []⟩

/-- `shutil.rmtree(f"output/scenario/{scenario_id}")` (line 531): every local
file under the scenario directory is removed. -/
def rmtree (st : RunState) (sid : String) : RunState :=
  { st with files := st.files.filter (fun p => p.dir != "output/scenario/" ++ sid) }

/-- The whole storage flow of one run: write and upload each artifact, then
delete the scenario directory. -/
def runGenConfigStorage (sid : String) (outcomes : Nat → UploadOutcome) : RunState :=
  rmtree (writePhase sid outcomes) sid

/-! ## Claim C1: the friends mappings of `generate-config.py` -/

/-- C1 (code bug in `generate-config.py`): `np.full(n_agents, {})` aliases one
dict across all agents, so the reported mappings violate the claim.  Concrete
evaluation: with the single weighted edge `((0, 1), 1/2)`, the mapping
reported for agent 2 is `{agent_uuids[1]: 1/2}` - identical to agent 0's
mapping - although the only edge of the graph joins agents 0 and 1 and is not
incident to agent 2, so agent 2's mapping contains an edge that is not
incident to agent 2 (and certainly not an outgoing edge of agent 2). -/
theorem c1_friends_shared_dict :
    friendsGenConfig [((0, 1), 1/2)] 2 = [(agentUuidAt 1, 1/2)] ∧
    friendsGenConfig [((0, 1), 1/2)] 2 = friendsGenConfig [((0, 1), 1/2)] 0 ∧
    (0 : Nat) ≠ 2 ∧ (1 : Nat) ≠ 2 :=
  ⟨rfl, rfl, by decide, by decide⟩

/-! ## Claim C2: truncation bounds -/

/-- C2 (code bug in `generate-config.py`): the claim describes
`truncn_at_m1_1` of the 2b script - whose transform does map the standardized
bounds back onto exactly `[-1, 1]` (third conjunct) - but the function `n` of
`generate-config.py` computes its lower bound from the module global `scale`
instead of the parameter `s`.  At every call site the global is unbound, so
the first table cell `n(0.6, 0.1)` raises (first conjunct, the modelled
`NameError`); and even under the binding `scale = 0.1` made later at line 446,
a cell with `s = 0.05` such as `n(0.1, 0.05)` would have support starting at
`-9/20`, not `-1` (second conjunct), contradicting the claimed support. -/
theorem c2_truncation_bug :
    n scaleGlobalAtTables (3/5) (1/10) = none ∧
    (n (some (1/10)) (1/10) (1/20)).map (fun d => d.rvs d.a) = some (-9/20) ∧
    ∀ l s : ℚ, s ≠ 0 →
      (truncn_at_m1_1 l s).rvs (truncn_at_m1_1 l s).a = -1 ∧
      (truncn_at_m1_1 l s).rvs (truncn_at_m1_1 l s).b = 1 := by
  refine ⟨rfl, by norm_num [n, truncnorm, TruncNorm.rvs], ?_⟩
  intro l s hs
  simp only [truncn_at_m1_1, truncnorm, TruncNorm.rvs]
  constructor
  · field_simp
  · field_simp

/-- Witness for C2: the general conjunct applied at the first perception cell
of the 2b table, location 0.6 and scale `0.1 / 3`. -/
theorem c2_truncation_bug_witness :
    (1 : ℚ)/30 ≠ 0 ∧
    ((truncn_at_m1_1 (3/5) (1/30)).rvs (truncn_at_m1_1 (3/5) (1/30)).a = -1 ∧
      (truncn_at_m1_1 (3/5) (1/30)).rvs (truncn_at_m1_1 (3/5) (1/30)).b = 1) :=
  ⟨by norm_num, c2_truncation_bug.2.2 (3/5) (1/30) (by norm_num)⟩

/-! ## Claim C8: positivity of the deltas -/

/-- C8: every value of an agent's deltas mapping is strictly positive: the
mapping assigns `|draw| + 0.0001` to each included belief, the draw coming
from a normal with location `1.0 - 0.001 = 0.999` and scale `0.1`; the
absolute value plus the positive floor is positive whatever the draw. -/
theorem c8_deltas_positive (mask : List Bool) (draws : Nat → ℚ) (b : Uuid) (v : ℚ)
    (hmem : (b, v) ∈ agentDeltas mask draws) :
    0 < v ∧ deltaLoc = 999/1000 ∧ deltaScale = 1/10 ∧ (∀ x : ℚ, 0 < deltaValue x) := by
  refine ⟨?_, by norm_num [deltaLoc], rfl, fun x => by unfold deltaValue; positivity⟩
  obtain ⟨i, -, heq⟩ := List.mem_map.1 hmem
  cases heq
  unfold deltaValue
  positivity

/-- Witness for C8: the delta of the first belief of a one-belief mask with a
zero draw. -/
theorem c8_deltas_positive_witness :
    (0 : ℚ) < deltaValue 0 ∧ deltaLoc = 999/1000 ∧ deltaScale = 1/10 ∧
      (∀ x : ℚ, 0 < deltaValue x) :=
  c8_deltas_positive [true] (fun _ => 0) (beliefUuidAt 0) (deltaValue 0) (by
    have hda : agentDeltas [true] (fun _ => 0) = [(beliefUuidAt 0, deltaValue 0)] := rfl
    rw [hda]
    exact List.mem_singleton.mpr rfl)

/-! ## Claim C9: stability of derived identifiers -/

/-- C9: identifier derivation is deterministic (in the embedding `uuid5` is a
pure function of the namespace and the name) and the behaviours document of
every run is the same fixed catalog whatever the random streams of the run -
in particular the four behaviour identifiers are identical across scenarios
irrespective of any belief-inclusion differences, which only affect later
stages. -/
theorem c9_identifiers_stable (inp inp2 : NpInputs) (py py2 : PyRng) :
    (generateScenario2b inp py).behavioursOut = behaviour_df ∧
    (generateScenario2b inp py).behavioursOut = (generateScenario2b inp2 py2).behavioursOut ∧
    behaviour_uuids = behaviours.map (fun b => uuid5 behaviour_namespace (.lit b)) :=
  ⟨rfl, rfl, rfl⟩

/-! ## Claim C5: upload failures and local artifacts -/

/-- The upload outcomes of a run whose third call raises `ClientError`. -/
def failingOutcomes : Nat → UploadOutcome := fun i => if i = 2 then some "ClientError" else none

/-- C5 counterexample: a run of the `generate-config.py` storage flow whose
third upload fails completes and reports `[true, true, false, true]` with the
error logged - but afterwards NO file is left on local disk: the artifacts
written during the run (fourth conjunct) are all removed by the
`shutil.rmtree` at line 531 (third conjunct), contradicting the claim that
the artifacts still exist after the run completes. -/
theorem c5_artifacts_deleted :
    (runGenConfigStorage "1" failingOutcomes).uploads = [true, true, false, true] ∧
    (runGenConfigStorage "1" failingOutcomes).log = ["ClientError"] ∧
    (runGenConfigStorage "1" failingOutcomes).files = [] ∧
    (writePhase "1" failingOutcomes).files =
      artifactNames.map (fun nm => ⟨"output/scenario/1", nm⟩) := by
  refine ⟨by decide, by decide, by decide, by decide⟩

/-- C5 as amended: upload failures are non-fatal - each of the four calls
reports success as a boolean, a `ClientError` message is logged, the run
continues to completion and all four artifacts are written locally - but the
end-of-run cleanup removes the scenario directory, so no artifact remains on
local disk once the run has completed. -/
theorem c5_upload_nonfatal (sid : String) (outcomes : Nat → UploadOutcome) :
    (runGenConfigStorage sid outcomes).uploads =
      [(outcomes 0).isNone, (outcomes 1).isNone, (outcomes 2).isNone, (outcomes 3).isNone] ∧
    (runGenConfigStorage sid outcomes).log =
      (outcomes 0).toList ++ (outcomes 1).toList ++ (outcomes 2).toList ++ (outcomes 3).toList ∧
    (writePhase sid outcomes).files =
      artifactNames.map (fun nm => ⟨"output/scenario/" ++ sid, nm⟩) ∧
    (runGenConfigStorage sid outcomes).files = [] := by
  have h : ∀ o : UploadOutcome, upload_file o = (o.isNone, o.toList) := by
    intro o; cases o <;> rfl
  have henum : artifactNames.enum =
      [(0, "behaviours.json"), (1, "beliefs.json"), (2, "prs.json"), (3, "agents.json.zst")] :=
    rfl
  have hwp : writePhase sid outcomes =
      ⟨[⟨"output/scenario/" ++ sid, "behaviours.json"⟩, ⟨"output/scenario/" ++ sid, "beliefs.json"⟩,
        ⟨"output/scenario/" ++ sid, "prs.json"⟩, ⟨"output/scenario/" ++ sid, "agents.json.zst"⟩],
       [(outcomes 0).isNone, (outcomes 1).isNone, (outcomes 2).isNone, (outcomes 3).isNone],
       (outcomes 0).toList ++ (outcomes 1).toList ++ (outcomes 2).toList ++ (outcomes 3).toList⟩ := by
    simp [writePhase, henum, List.foldl_cons, List.foldl_nil, doUpload, writeFile, h]
  refine ⟨?_, ?_, ?_, ?_⟩ <;>
    simp [runGenConfigStorage, hwp, rmtree, artifactNames]

/-! ## Claim C4: referential integrity -/

/-- Assignment to a key that is present leaves the key list of a dict
unchanged. -/
theorem dictKeys_dictSet_of_hasKey (d : List (Uuid × ℚ)) (k : Uuid) (v : ℚ)
    (h : hasKey d k = true) : dictKeys (dictSet d k v) = dictKeys d := by
  unfold hasKey at h
  unfold dictSet
  rw [if_pos h]
  unfold dictKeys
  rw [List.map_map]
  refine List.map_congr_left (fun p _ => ?_)
  by_cases hp : p.1 = k
  · simp [hp]
  · simp [hp]

/-- The scenario override never changes the key set of an activation dict that
already has the key of belief 11. -/
theorem dictKeys_applyOverride (d : List (Uuid × ℚ)) (coin u : ℚ)
    (h : hasKey d (beliefUuidAt 11) = true) :
    dictKeys (applyOverride d coin u) = dictKeys d := by
  unfold applyOverride
  split
  · exact dictKeys_dictSet_of_hasKey _ _ _ h
  · rfl

/-- Belief 11 is included by the include-all mask, so its key is present in
every pre-override activation dict. -/
theorem hasKey_11_activations0 (coins draws : Nat → ℚ) :
    hasKey (agentActivations0 include_beliefs_2b coins draws) (beliefUuidAt 11) = true := by
  unfold hasKey agentActivations0
  rw [List.any_eq_true]
  refine ⟨(beliefUuidAt 11, random_activation (coins 11) (draws 11)),
    List.mem_map.2 ⟨11, by decide, rfl⟩, by simp⟩

/-- The key list of a deltas mapping is exactly the included uuid list. -/
theorem dictKeys_agentDeltas (mask : List Bool) (draws : Nat → ℚ) :
    dictKeys (agentDeltas mask draws) = includedUuids mask := by
  unfold dictKeys agentDeltas includedUuids
  rw [List.map_map]
  rfl

/-- The key list of a pre-override activation dict is exactly the included
uuid list. -/
theorem dictKeys_agentActivations0 (mask : List Bool) (coins draws : Nat → ℚ) :
    dictKeys (agentActivations0 mask coins draws) = includedUuids mask := by
  unfold dictKeys agentActivations0 includedUuids
  rw [List.map_map]
  rfl

/-- C4: referential integrity.  For any mask (generate-config.py draws it by
Bernoulli, 2b includes all) the key set of every agent's deltas mapping and of
every agent's pre-override time-step-0 activations mapping is exactly the
included uuid list; the 2b override (which rewrites belief 11, included by the
include-all mask) leaves the activation key set equal to the included list;
and every prs entry's beliefUuid is an included uuid. -/
theorem c4_referential_integrity (mask : List Bool) (ddraws coins draws : Nat → ℚ)
    (ocoin ou : ℚ) (pdraws : Nat → Nat → ℚ) (e : PrsEntry)
    (he : e ∈ prsDoc mask pdraws) :
    dictKeys (agentDeltas mask ddraws) = includedUuids mask ∧
    dictKeys (agentActivations0 mask coins draws) = includedUuids mask ∧
    dictKeys (agentActivations include_beliefs_2b coins draws ocoin ou) =
      includedUuids include_beliefs_2b ∧
    e.beliefUuid ∈ includedUuids mask := by
  refine ⟨dictKeys_agentDeltas mask ddraws, dictKeys_agentActivations0 mask coins draws, ?_, ?_⟩
  · unfold agentActivations
    rw [dictKeys_applyOverride _ _ _ (hasKey_11_activations0 coins draws),
      dictKeys_agentActivations0]
  · obtain ⟨i, hi, hmem⟩ := List.mem_flatMap.1 he
    obtain ⟨j, -, hej⟩ := List.mem_map.1 hmem
    cases hej
    exact List.mem_map.2 ⟨i, hi, rfl⟩

/-- Witness for C4: the include-all one-entry mask `[true]`, zero draw
streams, and the first prs entry. -/
theorem c4_referential_integrity_witness :
    dictKeys (agentDeltas [true] (fun _ => 0)) = includedUuids [true] ∧
    dictKeys (agentActivations0 [true] (fun _ => 0) (fun _ => 0)) = includedUuids [true] ∧
    dictKeys (agentActivations include_beliefs_2b (fun _ => 0) (fun _ => 0) 0 0) =
      includedUuids include_beliefs_2b ∧
    (PrsEntry.mk (beliefUuidAt 0) (behaviourUuidAt 0) ((prsCell 0 0).rvs 0)).beliefUuid ∈
      includedUuids [true] :=
  c4_referential_integrity [true] (fun _ => 0) (fun _ => 0) (fun _ => 0) 0 0 (fun _ _ => 0) _ (by
    have hp : prsDoc [true] (fun _ _ => 0) =
        [⟨beliefUuidAt 0, behaviourUuidAt 0, (prsCell 0 0).rvs 0⟩,
         ⟨beliefUuidAt 0, behaviourUuidAt 1, (prsCell 0 1).rvs 0⟩,
         ⟨beliefUuidAt 0, behaviourUuidAt 2, (prsCell 0 2).rvs 0⟩,
         ⟨beliefUuidAt 0, behaviourUuidAt 3, (prsCell 0 3).rvs 0⟩] := rfl
    rw [hp]
    exact List.mem_cons_self _ _)

/-! ## Claim C6: the initial action -/

/-- The numpy argmax of a nonempty row is an index of the row, its value is
maximal, and every strictly earlier index holds a strictly smaller value: the
first occurrence of the maximum wins. -/
theorem npArgmax_spec (l : List ℚ) (h : l ≠ []) :
    npArgmax l < l.length ∧
    (∀ i, i < l.length → l.getD i 0 ≤ l.getD (npArgmax l) 0) ∧
    (∀ i, i < npArgmax l → l.getD i 0 < l.getD (npArgmax l) 0) := by
  obtain ⟨m, hm⟩ : ∃ m, l.maximum = some m := by
    cases hmax : l.maximum with
    | bot => exact absurd (List.maximum_eq_none.mp hmax) h
    | coe mm => exact ⟨mm, rfl⟩
  have harg : npArgmax l = l.findIdx (fun y => decide (m ≤ y)) := by
    unfold npArgmax
    rw [hm]
  rw [harg]
  have hlt : l.findIdx (fun y => decide (m ≤ y)) < l.length :=
    List.findIdx_lt_length_of_exists ⟨m, List.maximum_mem hm, by simp⟩
  have hval : l[l.findIdx (fun y => decide (m ≤ y))] = m := by
    refine le_antisymm (List.le_maximum_of_mem (List.getElem_mem hlt) hm) ?_
    have hpm := @List.findIdx_getElem _ (fun y => decide (m ≤ y)) l hlt
    exact of_decide_eq_true hpm
  have hgd : l.getD (l.findIdx (fun y => decide (m ≤ y))) 0 = m := by
    rw [List.getD_eq_getElem l 0 hlt, hval]
  refine ⟨hlt, ?_, ?_⟩
  · intro i hi
    rw [hgd, List.getD_eq_getElem l 0 hi]
    exact List.le_maximum_of_mem (List.getElem_mem hi) hm
  · intro i hi
    have hi2 : i < l.length := lt_trans hi hlt
    rw [hgd, List.getD_eq_getElem l 0 hi2]
    have hfalse := List.not_of_lt_findIdx hi
    have : ¬ (m ≤ l[i]) := by simpa using hfalse
    exact lt_of_not_le this

/-- `uuidIdx` recovers the catalog index of every belief uuid. -/
theorem uuidIdx_belief : ∀ i, i < 20 → uuidIdx belief_uuids (beliefUuidAt i) = i := by decide

/-- `uuidIdx` recovers the catalog index of every behaviour uuid. -/
theorem uuidIdx_behaviour : ∀ j, j < 4 → uuidIdx behaviour_uuids (behaviourUuidAt j) = j := by
  decide

/-- The position at which `prs_select_mat` writes one prs entry. -/
def prsPosOf (e : PrsEntry) : Nat × Nat :=
  (uuidIdx belief_uuids e.beliefUuid, uuidIdx behaviour_uuids e.behaviourUuid)

/-- `prs_select_mat` as the fold of positioned writes. -/
theorem prs_select_mat_eq (entries : List PrsEntry) :
    prs_select_mat entries =
      entries.foldl (fun m e => matSet m (prsPosOf e).1 (prsPosOf e).2 e.value)
        (List.replicate 20 (List.replicate 4 0)) := rfl

/-- The matrix dimensions maintained by the `prs_select_mat` fold. -/
def MatDims (m : List (List ℚ)) : Prop := m.length = 20 ∧ ∀ row ∈ m, row.length = 4

theorem matDims_replicate : MatDims (List.replicate 20 (List.replicate 4 0)) := by
  constructor
  · simp
  · intro row hrow
    rw [List.eq_of_mem_replicate hrow]
    simp

theorem matDims_matSet (m : List (List ℚ)) (i j : Nat) (v : ℚ) (h : MatDims m) :
    MatDims (matSet m i j v) := by
  by_cases hi : i < m.length
  · constructor
    · rw [matSet, List.length_set]
      exact h.1
    · intro row hrow
      rcases List.mem_or_eq_of_mem_set hrow with hmem | heq
      · exact h.2 row hmem
      · subst heq
        rw [List.length_set, List.getD_eq_getElem m [] hi]
        exact h.2 _ (List.getElem_mem hi)
  · unfold matSet
    rw [List.set_eq_of_length_le (by omega)]
    exact h

/-- The cell written by `matSet` holds the written value. -/
theorem cell_matSet_same (m : List (List ℚ)) (r c : Nat) (v : ℚ) (h : MatDims m)
    (hr : r < 20) (hc : c < 4) :
    ((matSet m r c v).getD r []).getD c 0 = v := by
  obtain ⟨hlen, hrows⟩ := h
  have hr2 : r < m.length := by omega
  have hrow : (matSet m r c v).getD r [] = (m.getD r []).set c v := by
    unfold matSet
    rw [List.getD_eq_getElem _ [] (by rw [List.length_set]; exact hr2)]
    exact List.getElem_set_self _
  rw [hrow]
  have hc2 : c < ((m.getD r []).set c v).length := by
    rw [List.length_set, List.getD_eq_getElem m [] hr2]
    rw [hrows _ (List.getElem_mem hr2)]
    exact hc
  rw [List.getD_eq_getElem _ 0 hc2]
  exact List.getElem_set_self _

/-- A `matSet` write leaves every other cell unchanged. -/
theorem cell_matSet_ne (m : List (List ℚ)) (i j r c : Nat) (v : ℚ)
    (hne : (i, j) ≠ (r, c)) :
    ((matSet m i j v).getD r []).getD c 0 = (m.getD r []).getD c 0 := by
  by_cases hir : i = r
  · subst hir
    have hjc : j ≠ c := by
      intro hh
      exact hne (by rw [hh])
    by_cases hi : i < m.length
    · have hrow : (matSet m i j v).getD i [] = (m.getD i []).set j v := by
        unfold matSet
        rw [List.getD_eq_getElem _ [] (by rw [List.length_set]; exact hi)]
        exact List.getElem_set_self _
      rw [hrow, List.getD_eq_getElem?_getD ((m.getD i []).set j v) c 0,
        List.getD_eq_getElem?_getD (m.getD i []) c 0, List.getElem?_set_ne hjc]
    · unfold matSet
      rw [List.set_eq_of_length_le (by omega)]
  · have hrow : (matSet m i j v).getD r [] = m.getD r [] := by
      unfold matSet
      rw [List.getD_eq_getElem?_getD (m.set i ((m.getD i []).set j v)) r [],
        List.getD_eq_getElem?_getD m r [], List.getElem?_set_ne hir]
    rw [hrow]

/-- A fold of writes that never touches `(r, c)` leaves that cell unchanged. -/
theorem cell_fold_not_written (E : List PrsEntry) (m : List (List ℚ)) (r c : Nat)
    (h : ∀ e ∈ E, prsPosOf e ≠ (r, c)) :
    (((E.foldl (fun m2 e => matSet m2 (prsPosOf e).1 (prsPosOf e).2 e.value) m).getD r []).getD
      c 0) = (m.getD r []).getD c 0 := by
  induction E generalizing m with
  | nil => rfl
  | cons e E ih =>
    rw [List.foldl_cons]
    rw [ih _ (fun e2 he2 => h e2 (List.mem_cons_of_mem _ he2))]
    have hpos : (prsPosOf e) ≠ (r, c) := h e (List.mem_cons_self _ _)
    exact cell_matSet_ne m _ _ r c e.value (by
      intro hh
      exact hpos (by rw [← hh]))

/-- The fold preserves the dimensions. -/
theorem matDims_fold (E : List PrsEntry) (m : List (List ℚ)) (h : MatDims m) :
    MatDims (E.foldl (fun m2 e => matSet m2 (prsPosOf e).1 (prsPosOf e).2 e.value) m) := by
  induction E generalizing m with
  | nil => exact h
  | cons e E ih => exact ih _ (matDims_matSet _ _ _ _ h)

/-- The entries `prsDoc` emits for one included belief index. -/
def prsRowEntries (draws : Nat → Nat → ℚ) (i : Nat) : List PrsEntry :=
  (List.range 4).map (fun j => ⟨beliefUuidAt i, behaviourUuidAt j, (prsCell i j).rvs (draws i j)⟩)

theorem prsDoc_eq_flatMap (mask : List Bool) (draws : Nat → Nat → ℚ) :
    prsDoc mask draws = (npWhere mask).flatMap (prsRowEntries draws) := rfl

theorem prsPosOf_entry (i j : Nat) (hi : i < 20) (hj : j < 4) (v : ℚ) :
    prsPosOf ⟨beliefUuidAt i, behaviourUuidAt j, v⟩ = (i, j) := by
  unfold prsPosOf
  rw [uuidIdx_belief i hi, uuidIdx_behaviour j hj]

/-- After the four writes of one belief row, the row's cells hold the sampled
prs values. -/
theorem cell_fold_row_same (draws : Nat → Nat → ℚ) (i c : Nat) (m : List (List ℚ))
    (hm : MatDims m) (hi : i < 20) (hc : c < 4) :
    (((prsRowEntries draws i).foldl
        (fun m2 e => matSet m2 (prsPosOf e).1 (prsPosOf e).2 e.value) m).getD i []).getD c 0 =
      (prsCell i c).rvs (draws i c) := by
  have hrow : prsRowEntries draws i =
      [⟨beliefUuidAt i, behaviourUuidAt 0, (prsCell i 0).rvs (draws i 0)⟩,
       ⟨beliefUuidAt i, behaviourUuidAt 1, (prsCell i 1).rvs (draws i 1)⟩,
       ⟨beliefUuidAt i, behaviourUuidAt 2, (prsCell i 2).rvs (draws i 2)⟩,
       ⟨beliefUuidAt i, behaviourUuidAt 3, (prsCell i 3).rvs (draws i 3)⟩] := rfl
  rw [hrow]
  simp only [List.foldl_cons, List.foldl_nil]
  rw [prsPosOf_entry i 0 hi (by norm_num) ((prsCell i 0).rvs (draws i 0)),
    prsPosOf_entry i 1 hi (by norm_num) ((prsCell i 1).rvs (draws i 1)),
    prsPosOf_entry i 2 hi (by norm_num) ((prsCell i 2).rvs (draws i 2)),
    prsPosOf_entry i 3 hi (by norm_num) ((prsCell i 3).rvs (draws i 3))]
  dsimp only
  have hm0 := matDims_matSet m i 0 ((prsCell i 0).rvs (draws i 0)) hm
  have hm1 := matDims_matSet _ i 1 ((prsCell i 1).rvs (draws i 1)) hm0
  have hm2 := matDims_matSet _ i 2 ((prsCell i 2).rvs (draws i 2)) hm1
  interval_cases c
  · rw [cell_matSet_ne _ i 3 i 0 _ (by simp), cell_matSet_ne _ i 2 i 0 _ (by simp),
      cell_matSet_ne _ i 1 i 0 _ (by simp)]
    exact cell_matSet_same m i 0 _ hm hi (by norm_num)
  · rw [cell_matSet_ne _ i 3 i 1 _ (by simp), cell_matSet_ne _ i 2 i 1 _ (by simp)]
    exact cell_matSet_same _ i 1 _ hm0 hi (by norm_num)
  · rw [cell_matSet_ne _ i 3 i 2 _ (by simp)]
    exact cell_matSet_same _ i 2 _ hm1 hi (by norm_num)
  · exact cell_matSet_same _ i 3 _ hm2 hi (by norm_num)

/-- The writes of a row with another belief index do not touch row `r`. -/
theorem cell_fold_row_other (draws : Nat → Nat → ℚ) (x r c : Nat) (m : List (List ℚ))
    (hx : x < 20) (hxr : x ≠ r) :
    (((prsRowEntries draws x).foldl
        (fun m2 e => matSet m2 (prsPosOf e).1 (prsPosOf e).2 e.value) m).getD r []).getD c 0 =
      (m.getD r []).getD c 0 := by
  apply cell_fold_not_written
  intro e he
  obtain ⟨j, hj, hej⟩ := List.mem_map.1 he
  cases hej
  rw [prsPosOf_entry x j hx (List.mem_range.mp hj)]
  intro hcontra
  exact hxr (congrArg Prod.fst hcontra)

/-- Folding the writes of the rows listed in `L` (distinct belief indices)
computes, at each row of `L`, the sampled prs value; rows outside `L` keep
the initial matrix. -/
theorem cell_fold_flatMap (draws : Nat → Nat → ℚ) (L : List Nat) (m : List (List ℚ))
    (hm : MatDims m) (r c : Nat) (hr : r < 20) (hc : c < 4)
    (hL : ∀ x ∈ L, x < 20) (hnod : L.Nodup) :
    (((L.flatMap (prsRowEntries draws)).foldl
        (fun m2 e => matSet m2 (prsPosOf e).1 (prsPosOf e).2 e.value) m).getD r []).getD c 0 =
      if r ∈ L then (prsCell r c).rvs (draws r c) else (m.getD r []).getD c 0 := by
  induction L generalizing m with
  | nil => simp
  | cons x L ih =>
    rw [List.flatMap_cons, List.foldl_append]
    have hmx : MatDims ((prsRowEntries draws x).foldl
        (fun m2 e => matSet m2 (prsPosOf e).1 (prsPosOf e).2 e.value) m) :=
      matDims_fold _ _ hm
    have hLtail : ∀ y ∈ L, y < 20 := fun y hy => hL y (List.mem_cons_of_mem _ hy)
    have hnodtail : L.Nodup := (List.nodup_cons.mp hnod).2
    rw [ih _ hmx hLtail hnodtail]
    by_cases hxr : x = r
    · subst hxr
      have hnotin : x ∉ L := (List.nodup_cons.mp hnod).1
      rw [if_neg hnotin, if_pos (List.mem_cons_self _ _)]
      exact cell_fold_row_same draws x c m hm (hL x (List.mem_cons_self _ _)) hc
    · by_cases hrL : r ∈ L
      · rw [if_pos hrL, if_pos (List.mem_cons_of_mem _ hrL)]
      · rw [if_neg hrL, if_neg (by
          intro hmem
          rcases List.mem_cons.mp hmem with h1 | h2
          · exact hxr h1.symm
          · exact hrL h2)]
        exact cell_fold_row_other draws x r c m (hL x (List.mem_cons_self _ _)) hxr

/-- Each cell of the reconstructed `prs_select_mat` holds exactly the value
the prs document sampled for that (belief, behaviour) pair. -/
theorem prs_select_mat_cell (draws : Nat → Nat → ℚ) (r c : Nat) (hr : r < 20) (hc : c < 4) :
    ((prs_select_mat (prsDoc include_beliefs_2b draws)).getD r []).getD c 0 =
      (prsCell r c).rvs (draws r c) := by
  rw [prs_select_mat_eq, prsDoc_eq_flatMap]
  rw [show npWhere include_beliefs_2b = List.range 20 from rfl]
  rw [cell_fold_flatMap draws (List.range 20) _ matDims_replicate r c hr hc
    (fun x hx => List.mem_range.mp hx) (List.nodup_range 20)]
  rw [if_pos (List.mem_range.mpr hr)]

/-- `getD` on a map over `List.range`. -/
theorem getD_range_map {α : Type} (nn j2 : Nat) (f : Nat → α) (d : α) (hj : j2 < nn) :
    ((List.range nn).map f).getD j2 d = f j2 := by
  rw [List.getD_eq_getElem _ _ (by
    rw [List.length_map, List.length_range]
    exact hj)]
  rw [List.getElem_map, List.getElem_range]

/-- Row selection under the include-all mask returns the matrix rows as they
are. -/
theorem selectRows_cell (m : List (List ℚ)) (r : Nat) (hr : r < 20) :
    (selectRows m include_beliefs_2b).getD r [] = m.getD r [] := by
  unfold selectRows
  rw [show npWhere include_beliefs_2b = List.range 20 from rfl]
  exact getD_range_map 20 r _ [] hr

set_option maxRecDepth 8000 in
/-- C6: for every agent of a 2b run, the stored `actions[0]` is
`behaviour_uuids[np.argmax(scores)]` where the scores row is the dot product
of the agent's (post-override) activation row over included beliefs with the
PRS sub-matrix restricted to included beliefs; the argmax index is below 4,
its score is maximal, every strictly earlier behaviour scores strictly less
(first-occurrence tie-break), the stored identifier belongs to the fixed
catalog, and the sub-matrix rows hold exactly the sampled prs values. -/
theorem c6_initial_action (inp : NpInputs) (py : PyRng) (j : Nat) (hj : j < N_AGENTS) :
    let mask := include_beliefs_2b
    let selMat := selectRows (prs_select_mat (prsDoc mask inp.prsDraws)) mask
    let row := activationRowOf
      (agentActivations mask (inp.actCoins j) (inp.actDraws j)
        (inp.overrideCoins j) (inp.overrideDraws j)) mask
    let scores := dotRow row selMat 4
    let idx := npArgmax scores
    ((generateScenario2b inp py).agentsOut.getD j ⟨noUuid, [], [], [], []⟩).actions =
      [(0, behaviourUuidAt idx)] ∧
    idx < 4 ∧
    (∀ i2, i2 < 4 → scores.getD i2 0 ≤ scores.getD idx 0) ∧
    (∀ i2, i2 < idx → scores.getD i2 0 < scores.getD idx 0) ∧
    behaviourUuidAt idx ∈ behaviour_uuids ∧
    (∀ r c, r < 20 → c < 4 →
      (selMat.getD r []).getD c 0 = (prsCell r c).rvs (inp.prsDraws r c)) := by
  intro mask selMat row scores idx
  have hlen : scores.length = 4 := by
    show (dotRow row selMat 4).length = 4
    unfold dotRow
    rw [List.length_map, List.length_range]
  have hne : scores ≠ [] := by
    intro hnil
    rw [hnil] at hlen
    simp at hlen
  obtain ⟨h1, h2, h3⟩ := npArgmax_spec scores hne
  have hidx : idx < 4 := by
    rw [← hlen]
    exact h1
  refine ⟨?_, hidx, fun i2 hi2 => h2 i2 (by omega), h3, ?_, ?_⟩
  · have hout : (generateScenario2b inp py).agentsOut =
        (List.range N_AGENTS).map (fun j2 =>
          Agent.mk (agentUuidAt j2)
            (friendsOf (weightedEdges (network2b py inp.selfProbs) inp.wdraws) j2)
            (agentDeltas mask (inp.deltaDraws j2))
            [(0, agentActivations mask (inp.actCoins j2) (inp.actDraws j2)
              (inp.overrideCoins j2) (inp.overrideDraws j2))]
            [(0, behaviourUuidAt
              ((choose_initial_actions
                ((List.range N_AGENTS).map (fun j3 =>
                  activationRowOf (agentActivations mask (inp.actCoins j3) (inp.actDraws j3)
                    (inp.overrideCoins j3) (inp.overrideDraws j3)) mask))
                selMat).getD j2 0))]) := rfl
    rw [hout, getD_range_map N_AGENTS j _ _ hj]
    have hact : (choose_initial_actions
        ((List.range N_AGENTS).map (fun j3 =>
          activationRowOf (agentActivations mask (inp.actCoins j3) (inp.actDraws j3)
            (inp.overrideCoins j3) (inp.overrideDraws j3)) mask))
        selMat).getD j 0 = idx := by
      unfold choose_initial_actions
      rw [List.map_map]
      exact getD_range_map N_AGENTS j _ 0 hj
    rw [hact]
  · show behaviour_uuids.getD idx noUuid ∈ behaviour_uuids
    rw [List.getD_eq_getElem _ _ (by
      show idx < behaviour_uuids.length
      have : behaviour_uuids.length = 4 := rfl
      omega)]
    exact List.getElem_mem _
  · intro r c hr hc
    show ((selectRows (prs_select_mat (prsDoc mask inp.prsDraws)) mask).getD r []).getD c 0 = _
    rw [selectRows_cell _ r hr]
    exact prs_select_mat_cell inp.prsDraws r c hr hc

/-- The all-zero numpy stream bundle. -/
def zeroNpInputs : NpInputs :=
  ⟨fun _ _ => 0, fun _ _ => 0, fun _ _ => 0, fun _ => 0, fun _ => 0,
   fun _ _ => 0, fun _ _ => 0, fun _ _ => 0, fun _ => 0, fun _ => 0⟩

/-- The all-zero Python random streams. -/
def zeroPyRng : PyRng := ⟨fun _ => 0, fun _ => 0⟩

/-- Witness for C6: agent 0 of the run on all-zero streams. -/
theorem c6_initial_action_witness :
    (let mask := include_beliefs_2b
    let selMat := selectRows (prs_select_mat (prsDoc mask zeroNpInputs.prsDraws)) mask
    let row := activationRowOf
      (agentActivations mask (zeroNpInputs.actCoins 0) (zeroNpInputs.actDraws 0)
        (zeroNpInputs.overrideCoins 0) (zeroNpInputs.overrideDraws 0)) mask
    let scores := dotRow row selMat 4
    let idx := npArgmax scores
    ((generateScenario2b zeroNpInputs zeroPyRng).agentsOut.getD 0 ⟨noUuid, [], [], [], []⟩).actions =
      [(0, behaviourUuidAt idx)] ∧
    idx < 4 ∧
    (∀ i2, i2 < 4 → scores.getD i2 0 ≤ scores.getD idx 0) ∧
    (∀ i2, i2 < idx → scores.getD i2 0 < scores.getD idx 0) ∧
    behaviourUuidAt idx ∈ behaviour_uuids ∧
    (∀ r c, r < 20 → c < 4 →
      (selMat.getD r []).getD c 0 = (prsCell r c).rvs (zeroNpInputs.prsDraws r c))) :=
  c6_initial_action zeroNpInputs zeroPyRng 0 (by norm_num [N_AGENTS])

/-! ## Claim C7: bounded sampling -/

/-- The affine transform of a correctly standardized truncated draw stays in
`[-1, 1]`. -/
theorem rvs_mem_interval (l s u : ℚ) (hs : 0 < s)
    (h1 : (-1 - l) / s ≤ u) (h2 : u ≤ (1 - l) / s) :
    -1 ≤ l + s * u ∧ l + s * u ≤ 1 := by
  constructor
  · have h3 : -1 - l ≤ u * s := (div_le_iff₀ hs).mp h1
    nlinarith
  · have h3 : u * s ≤ 1 - l := (le_div_iff₀ hs).mp h2
    nlinarith

/-- Every table distribution a 2b run samples `[-1, 1]` values from: the three
hand-authored tables and the scenario-override cell. -/
def allCells2b : List TruncNorm :=
  perceptions.flatMap id ++ relationships.flatMap id ++ prs_mat.flatMap id ++ [overrideDist]

theorem table_shape (P : List (List (ℚ × ℚ))) (d : TruncNorm)
    (hd : d ∈ (P.map (List.map (fun p => truncn_at_m1_1 p.1 p.2))).flatMap id) :
    ∃ p row, row ∈ P ∧ p ∈ row ∧ d = truncn_at_m1_1 p.1 p.2 := by
  obtain ⟨row, hrow, hdrow⟩ := List.mem_flatMap.1 hd
  obtain ⟨prow, hprow, hrow2⟩ := List.mem_map.1 hrow
  subst hrow2
  obtain ⟨p, hp, hdp⟩ := List.mem_map.1 hdrow
  exact ⟨p, prow, hprow, hp, hdp.symm⟩

theorem perceptionParams_pos : ∀ row ∈ perceptionParams, ∀ q ∈ row, 0 < q.2 := by
  simp only [perceptionParams, List.forall_mem_cons, List.forall_mem_nil, and_true]
  norm_num

theorem relationshipParams_pos : ∀ row ∈ relationshipParams, ∀ q ∈ row, 0 < q.2 := by
  simp only [relationshipParams, List.forall_mem_cons, List.forall_mem_nil, and_true]
  norm_num

theorem prsParams_pos : ∀ row ∈ prsParams, ∀ q ∈ row, 0 < q.2 := by
  simp only [prsParams, List.forall_mem_cons, List.forall_mem_nil, and_true]
  norm_num

/-- Every cell of `allCells2b` is a `truncn_at_m1_1` with positive scale. -/
theorem allCells2b_shape (d : TruncNorm) (hd : d ∈ allCells2b) :
    ∃ l s, 0 < s ∧ d = truncn_at_m1_1 l s := by
  unfold allCells2b at hd
  rcases List.mem_append.1 hd with hd1 | hover
  · rcases List.mem_append.1 hd1 with hd2 | hprs
    · rcases List.mem_append.1 hd2 with hperc | hrel
      · obtain ⟨p, row, hrow, hp, hpd⟩ := table_shape perceptionParams d hperc
        exact ⟨p.1, p.2, perceptionParams_pos row hrow p hp, hpd⟩
      · obtain ⟨p, row, hrow, hp, hpd⟩ := table_shape relationshipParams d hrel
        exact ⟨p.1, p.2, relationshipParams_pos row hrow p hp, hpd⟩
    · obtain ⟨p, row, hrow, hp, hpd⟩ := table_shape prsParams d hprs
      exact ⟨p.1, p.2, prsParams_pos row hrow p hp, hpd⟩
  · rw [List.mem_singleton.1 hover]
    exact ⟨-1/2, 15/100, by norm_num, rfl⟩

/-- C7: every sampled perception, relationship, PRS and override value lies in
`[-1, 1]`; every friendship edge weight lies in `[0, 1]`; every activation
value lies in `[-1, 1]` (either the exact 0.0 of the coin branch or a
truncated draw with standardized bounds -10 and 10), whatever the configured
location and scale of the table cell. -/
theorem c7_bounded_sampling (d : TruncNorm) (hd : d ∈ allCells2b) (u ua coin v : ℚ)
    (hu1 : d.a ≤ u) (hu2 : u ≤ d.b)
    (hw1 : w_dist.a ≤ ua) (hw2 : ua ≤ w_dist.b)
    (hv1 : -10 ≤ v) (hv2 : v ≤ 10) :
    (-1 ≤ d.rvs u ∧ d.rvs u ≤ 1) ∧
    (0 ≤ w_dist.rvs ua ∧ w_dist.rvs ua ≤ 1) ∧
    (-1 ≤ random_activation coin v ∧ random_activation coin v ≤ 1) := by
  refine ⟨?_, ?_, ?_⟩
  · obtain ⟨l, s, hs, hdeq⟩ := allCells2b_shape d hd
    subst hdeq
    simp only [truncn_at_m1_1, truncnorm, TruncNorm.rvs] at hu1 hu2 ⊢
    exact rvs_mem_interval l s u hs hu1 hu2
  · simp only [w_dist, w_dist_gen, truncnorm, TruncNorm.rvs] at hw1 hw2 ⊢
    norm_num at hw1 hw2 ⊢
    constructor <;> linarith
  · unfold random_activation
    split
    · norm_num
    · simp only [TruncNorm.rvs, truncnorm]
      constructor <;> nlinarith

/-- The first perception table cell belongs to the cell collection. -/
theorem firstCell_mem : truncn_at_m1_1 (3/5) (1/30) ∈ allCells2b := by
  have h2 : truncn_at_m1_1 (3/5) (1/30) ∈ perceptions.flatMap id := by
    apply List.mem_flatMap.2
    refine ⟨_, List.mem_map.2 ⟨_, List.mem_cons_self _ _, rfl⟩, ?_⟩
    exact List.mem_map.2 ⟨((3 : ℚ)/5, (1 : ℚ)/30), List.mem_cons_self _ _, rfl⟩
  unfold allCells2b
  exact List.mem_append_left _ (List.mem_append_left _ (List.mem_append_left _ h2))

/-- Witness for C7: the first perception cell at its lower support bound, a
weight draw 0 and an activation draw 0. -/
theorem c7_bounded_sampling_witness :
    ((-1 : ℚ) ≤ (truncn_at_m1_1 (3/5) (1/30)).rvs (-48) ∧
      (truncn_at_m1_1 (3/5) (1/30)).rvs (-48) ≤ 1) ∧
    ((0 : ℚ) ≤ w_dist.rvs 0 ∧ w_dist.rvs 0 ≤ 1) ∧
    ((-1 : ℚ) ≤ random_activation 0 0 ∧ random_activation 0 0 ≤ 1) :=
  c7_bounded_sampling (truncn_at_m1_1 (3/5) (1/30)) firstCell_mem (-48) 0 0 0
    (by norm_num [truncn_at_m1_1, truncnorm]) (by norm_num [truncn_at_m1_1, truncnorm])
    (by norm_num [w_dist, w_dist_gen, truncnorm]) (by norm_num [w_dist, w_dist_gen, truncnorm])
    (by norm_num) (by norm_num)

/-! ## Claim C10: storage of undirected edges in the 2b friends maps -/

theorem sameEdge_iff (e f : Edge) :
    sameEdge e f = true ↔ (e = f ∨ (e.1 = f.2 ∧ e.2 = f.1)) := by
  rcases e with ⟨a, b⟩
  rcases f with ⟨c, d⟩
  simp [sameEdge, Prod.ext_iff]

theorem sameEdge_symmRel :
    Symmetric (fun e f : Edge => sameEdge e f = false) := by
  intro e f h
  rw [Bool.eq_false_iff] at h ⊢
  intro hcontra
  apply h
  rw [sameEdge_iff] at hcontra ⊢
  rcases hcontra with h1 | h2
  · exact Or.inl h1.symm
  · exact Or.inr ⟨h2.2.symm, h2.1.symm⟩

/-- The stored edge list never holds two orientations of one undirected
edge. -/
def EdgeNodup (g : List Edge) : Prop :=
  List.Pairwise (fun e f => sameEdge e f = false) g

theorem hasEdge_iff (g : List Edge) (u v : Nat) :
    hasEdge g u v = true ↔ ((u, v) ∈ g ∨ (v, u) ∈ g) := by
  unfold hasEdge
  rw [List.any_eq_true]
  constructor
  · rintro ⟨e, he, hse⟩
    rcases (sameEdge_iff e (u, v)).1 hse with h1 | h2
    · exact Or.inl (h1 ▸ he)
    · rcases e with ⟨a, b⟩
      obtain ⟨rfl, rfl⟩ : a = v ∧ b = u := ⟨h2.1, h2.2⟩
      exact Or.inr he
  · rintro (h1 | h2)
    · exact ⟨(u, v), h1, (sameEdge_iff _ _).2 (Or.inl rfl)⟩
    · exact ⟨(v, u), h2, (sameEdge_iff _ _).2 (Or.inr ⟨rfl, rfl⟩)⟩

theorem hasEdge_eq_false (g : List Edge) (u v : Nat) :
    hasEdge g u v = false ↔ ((u, v) ∉ g ∧ (v, u) ∉ g) := by
  rw [Bool.eq_false_iff]
  rw [Ne, hasEdge_iff]
  tauto

theorem mem_addEdge (g : List Edge) (u v : Nat) (x : Edge) (h : x ∈ addEdge g u v) :
    x ∈ g ∨ x = (u, v) := by
  unfold addEdge at h
  split at h
  · exact Or.inl h
  · rcases List.mem_append.1 h with h1 | h2
    · exact Or.inl h1
    · exact Or.inr (List.mem_singleton.1 h2)

theorem mem_addEdge_of_mem (g : List Edge) (u v : Nat) (x : Edge) (h : x ∈ g) :
    x ∈ addEdge g u v := by
  unfold addEdge
  split
  · exact h
  · exact List.mem_append_left _ h

theorem edgeNodup_addEdge (g : List Edge) (u v : Nat) (h : EdgeNodup g) :
    EdgeNodup (addEdge g u v) := by
  unfold addEdge
  split
  · exact h
  · rename_i hne
    rw [EdgeNodup, List.pairwise_append]
    refine ⟨h, List.pairwise_singleton _ _, ?_⟩
    intro a ha b hb
    rw [List.mem_singleton.1 hb]
    have := (List.any_eq_false.1 (Bool.eq_false_iff.2 hne)) a ha
    exact Bool.eq_false_iff.2 this

theorem edgeNodup_removeEdge (g : List Edge) (u v : Nat) (h : EdgeNodup g) :
    EdgeNodup (removeEdge g u v) :=
  List.Pairwise.sublist (List.filter_sublist g) h

theorem edgeNodup_rewireStep (rng : PyRng) (nn : Nat) (p : ℚ) (st : WsState) (e : Edge)
    (h : EdgeNodup st.graph) : EdgeNodup (rewireStep rng nn p st e).graph := by
  unfold rewireStep
  split
  · rcases hw : rewireWhile rng st.graph nn e.1 nn (rng.choices st.ci) (st.ci + 1) with ⟨w2, ci2⟩
    cases w2 with
    | some w3 => exact edgeNodup_addEdge _ _ _ (edgeNodup_removeEdge _ _ _ h)
    | none => exact h
  · exact h

theorem edgeNodup_rewireFold (rng : PyRng) (nn : Nat) (p : ℚ) (pairs : List Edge)
    (st : WsState) (h : EdgeNodup st.graph) :
    EdgeNodup ((pairs.foldl (rewireStep rng nn p) st).graph) := by
  induction pairs generalizing st with
  | nil => exact h
  | cons e pairs ih =>
    rw [List.foldl_cons]
    exact ih _ (edgeNodup_rewireStep rng nn p st e h)

theorem edgeNodup_addEdgeFold (pairs : List Edge) (g : List Edge) (h : EdgeNodup g) :
    EdgeNodup (pairs.foldl (fun g2 e => addEdge g2 e.1 e.2) g) := by
  induction pairs generalizing g with
  | nil => exact h
  | cons e pairs ih =>
    rw [List.foldl_cons]
    exact ih _ (edgeNodup_addEdge _ _ _ h)

theorem edgeNodup_lattice (nn k : Nat) : EdgeNodup (lattice nn k) :=
  edgeNodup_addEdgeFold _ [] List.Pairwise.nil

theorem edgeNodup_ws (nn k : Nat) (p : ℚ) (rng : PyRng) :
    EdgeNodup (watts_strogatz_graph nn k p rng) :=
  edgeNodup_rewireFold rng nn p _ _ (edgeNodup_lattice nn k)

theorem edgeNodup_addSelfLoops (g : List Edge) (nn : Nat) (probs : Nat → ℚ)
    (h : EdgeNodup g) : EdgeNodup (addSelfLoops g nn probs) := by
  unfold addSelfLoops
  induction List.range nn generalizing g with
  | nil => exact h
  | cons i l ih =>
    rw [List.foldl_cons]
    refine ih _ ?_
    split
    · exact edgeNodup_addEdge _ _ _ h
    · exact h

/-- The stored edge list of every 2b friendship graph holds each undirected
edge at most once, whatever the random streams. -/
theorem edgeNodup_network2b (rng : PyRng) (probs : Nat → ℚ) :
    EdgeNodup (network2b rng probs) :=
  edgeNodup_addSelfLoops _ _ _ (edgeNodup_ws _ _ _ _)

theorem not_both_orientations (g : List Edge) (h : EdgeNodup g) (u v : Nat) (huv : u ≠ v) :
    ¬((u, v) ∈ g ∧ (v, u) ∈ g) := by
  rintro ⟨h1, h2⟩
  have hne : ((u, v) : Edge) ≠ (v, u) := by
    intro hcontra
    exact huv (congrArg Prod.fst hcontra)
  have hR := List.Pairwise.forall sameEdge_symmRel h h1 h2 hne
  rw [Bool.eq_false_iff] at hR
  exact hR ((sameEdge_iff _ _).2 (Or.inr ⟨rfl, rfl⟩))

/-! Keys of the 2b friends dicts -/

theorem hasKey_dictSet (d : List (Uuid × ℚ)) (k2 k : Uuid) (v : ℚ) :
    hasKey (dictSet d k2 v) k = true ↔ (hasKey d k = true ∨ k2 = k) := by
  unfold hasKey dictSet
  split
  · rename_i hin
    rw [List.any_eq_true, List.any_eq_true]
    constructor
    · rintro ⟨q, hq, hqk⟩
      obtain ⟨q0, hq0, hq0q⟩ := List.mem_map.1 hq
      by_cases hcase : q0.1 = k2
      · rw [if_pos hcase] at hq0q
        subst hq0q
        simp only [decide_eq_true_eq] at hqk
        exact Or.inr hqk
      · rw [if_neg hcase] at hq0q
        subst hq0q
        exact Or.inl ⟨q0, hq0, hqk⟩
    · rintro (⟨q, hq, hqk⟩ | hk2)
      · simp only [decide_eq_true_eq] at hqk
        by_cases hcase : q.1 = k2
        · refine ⟨(k2, v), List.mem_map.2 ⟨q, hq, by rw [if_pos hcase]⟩, ?_⟩
          simp only [decide_eq_true_eq]
          rw [← hqk, hcase]
        · exact ⟨q, List.mem_map.2 ⟨q, hq, by rw [if_neg hcase]⟩, by
            simp only [decide_eq_true_eq]
            exact hqk⟩
      · subst hk2
        obtain ⟨q, hq, hqk⟩ := List.any_eq_true.1 ‹List.any d _ = true›
        refine ⟨(k2, v), List.mem_map.2 ⟨q, hq, ?_⟩, by simp⟩
        simp only [decide_eq_true_eq] at hqk
        rw [if_pos hqk]
  · rw [List.any_eq_true, List.any_eq_true]
    constructor
    · rintro ⟨q, hq, hqk⟩
      rcases List.mem_append.1 hq with h1 | h2
      · exact Or.inl ⟨q, h1, hqk⟩
      · rw [List.mem_singleton.1 h2] at hqk
        simp only [decide_eq_true_eq] at hqk
        exact Or.inr hqk
    · rintro (⟨q, hq, hqk⟩ | hk2)
      · exact ⟨q, List.mem_append_left _ hq, hqk⟩
      · exact ⟨(k2, v), List.mem_append_right _ (List.mem_singleton.2 rfl), by
          simp only [decide_eq_true_eq]
          exact hk2⟩

theorem hasKey_friendsFold (l : List (Edge × ℚ)) (d : List (Uuid × ℚ)) (k : Uuid) :
    hasKey (l.foldl (fun d2 p => dictSet d2 (agentUuidAt p.1.2) p.2) d) k = true ↔
      (hasKey d k = true ∨ ∃ p ∈ l, agentUuidAt p.1.2 = k) := by
  induction l generalizing d with
  | nil => simp
  | cons p l ih =>
    rw [List.foldl_cons, ih, hasKey_dictSet]
    constructor
    · rintro ((h1 | h2) | h3)
      · exact Or.inl h1
      · exact Or.inr ⟨p, List.mem_cons_self _ _, h2⟩
      · obtain ⟨q, hq, hqk⟩ := h3
        exact Or.inr ⟨q, List.mem_cons_of_mem _ hq, hqk⟩
    · rintro (h1 | ⟨q, hq, hqk⟩)
      · exact Or.inl (Or.inl h1)
      · rcases List.mem_cons.1 hq with h2 | h3
        · subst h2
          exact Or.inl (Or.inr hqk)
        · exact Or.inr ⟨q, h3, hqk⟩

theorem agentUuidAt_inj (i j : Nat) (h : agentUuidAt i = agentUuidAt j) : i = j := by
  simp only [agentUuidAt, uuid5, Uuid.mk.injEq, PyName.fmt.injEq] at h
  exact h.2.2

/-- The friends dict of agent `u` has the key of agent `v` exactly when the
stored edge list holds the oriented pair `(u, v)`. -/
theorem hasKey_friendsOf (g : List Edge) (wdraws : Nat → ℚ) (u v : Nat) :
    hasKey (friendsOf (weightedEdges g wdraws) u) (agentUuidAt v) = true ↔ (u, v) ∈ g := by
  unfold friendsOf
  rw [hasKey_friendsFold]
  constructor
  · rintro (h0 | ⟨p, hp, hpk⟩)
    · exact absurd h0 (by simp [hasKey])
    · obtain ⟨hpmem, hpu⟩ := List.mem_filter.1 hp
      simp only [decide_eq_true_eq] at hpu
      have hv := agentUuidAt_inj _ _ hpk
      have hmem : p.1 ∈ g := by
        unfold weightedEdges at hpmem
        obtain ⟨q, hq, hqp⟩ := List.mem_map.1 hpmem
        have hq2 : q.2 = p.1 := congrArg Prod.fst hqp
        rw [← hq2]
        exact List.getElem?_mem (List.mem_enum_iff_getElem?.1 hq)
      have hp1 : p.1 = (u, v) := Prod.ext_iff.2 ⟨hpu, hv⟩
      rw [← hp1]
      exact hmem
  · intro hmem
    right
    obtain ⟨i2, hi⟩ := List.mem_iff_getElem?.1 hmem
    refine ⟨((u, v), w_dist.rvs (wdraws i2)), ?_, rfl⟩
    rw [List.mem_filter]
    refine ⟨?_, by simp⟩
    unfold weightedEdges
    exact List.mem_map.2 ⟨(i2, (u, v)), List.mem_enum_iff_getElem?.2 hi, rfl⟩

/-- C10: in the final (seeded, include-all) generator, every undirected
non-self-loop edge between two distinct agents is stored in exactly one of the
two friends mappings (never both, and in at least one exactly when the graph
holds the edge), while each self-loop appears in the agent's own mapping; so
the stored (source, key) pairs enumerate each graph edge exactly once,
whatever the random streams. -/
theorem c10_edge_stored_once (rng : PyRng) (probs wdraws : Nat → ℚ) (u v : Nat)
    (huv : u ≠ v) :
    ¬(hasKey (friendsOf (weightedEdges (network2b rng probs) wdraws) u) (agentUuidAt v) = true ∧
      hasKey (friendsOf (weightedEdges (network2b rng probs) wdraws) v) (agentUuidAt u) = true) ∧
    (hasEdge (network2b rng probs) u v = true ↔
      (hasKey (friendsOf (weightedEdges (network2b rng probs) wdraws) u) (agentUuidAt v) = true ∨
       hasKey (friendsOf (weightedEdges (network2b rng probs) wdraws) v) (agentUuidAt u) = true)) ∧
    (hasEdge (network2b rng probs) u u = true ↔
      hasKey (friendsOf (weightedEdges (network2b rng probs) wdraws) u) (agentUuidAt u) = true) := by
  have hnod := edgeNodup_network2b rng probs
  refine ⟨?_, ?_, ?_⟩
  · rintro ⟨h1, h2⟩
    rw [hasKey_friendsOf] at h1 h2
    exact not_both_orientations _ hnod u v huv ⟨h1, h2⟩
  · rw [hasEdge_iff, hasKey_friendsOf, hasKey_friendsOf]
  · rw [hasEdge_iff, hasKey_friendsOf, or_self]

/-- Witness for C10: agents 0 and 1 of the run on the all-one Python streams
and all-zero numpy streams. -/
theorem c10_edge_stored_once_witness :
    ¬(hasKey (friendsOf (weightedEdges (network2b zeroPyRng zeroNpInputs.selfProbs)
        zeroNpInputs.wdraws) 0) (agentUuidAt 1) = true ∧
      hasKey (friendsOf (weightedEdges (network2b zeroPyRng zeroNpInputs.selfProbs)
        zeroNpInputs.wdraws) 1) (agentUuidAt 0) = true) ∧
    (hasEdge (network2b zeroPyRng zeroNpInputs.selfProbs) 0 1 = true ↔
      (hasKey (friendsOf (weightedEdges (network2b zeroPyRng zeroNpInputs.selfProbs)
        zeroNpInputs.wdraws) 0) (agentUuidAt 1) = true ∨
       hasKey (friendsOf (weightedEdges (network2b zeroPyRng zeroNpInputs.selfProbs)
        zeroNpInputs.wdraws) 1) (agentUuidAt 0) = true)) ∧
    (hasEdge (network2b zeroPyRng zeroNpInputs.selfProbs) 0 0 = true ↔
      hasKey (friendsOf (weightedEdges (network2b zeroPyRng zeroNpInputs.selfProbs)
        zeroNpInputs.wdraws) 0) (agentUuidAt 0) = true) :=
  c10_edge_stored_once zeroPyRng zeroNpInputs.selfProbs zeroNpInputs.wdraws 0 1 (by decide)

/-! ## Claim C3: a fixed numpy seed does not make runs reproducible

`np.random.seed(543879 + int(SCENARIO_ID))` fixes every numpy-derived stream
of `NpInputs`, but `watts_strogatz_graph` is called with `seed=None` and so
draws from Python's global `random` module, which the numpy seed does not
touch.  Two runs with the same scenario id (hence identical `NpInputs`) can
therefore see different `PyRng` streams; the two concrete streams below make
the two runs produce different agents documents. -/

/-- A Python-random state under which no lattice pair is rewired: every
`seed.random()` draw is 1. -/
def pyRngA : PyRng := ⟨fun _ => 1, fun _ => 2500⟩

/-- A Python-random state under which exactly the first lattice pair (0, 1)
is rewired to (0, 2500): the first `seed.random()` draw is 0, every later
draw is 1, and `seed.choice` always picks node 2500. -/
def pyRngB : PyRng := ⟨fun i => if i = 0 then 0 else 1, fun _ => 2500⟩

/-- When every remaining uniform draw fails the `< p` test, the rewiring pass
leaves the graph unchanged. -/
theorem rewire_fold_skip (rng : PyRng) (nn : Nat) (p : ℚ) (pairs : List Edge)
    (g : List Edge) (ri ci : Nat) (h : ∀ i, ri ≤ i → ¬ rng.randoms i < p) :
    ((pairs.foldl (rewireStep rng nn p) ⟨g, ri, ci⟩).graph) = g := by
  induction pairs generalizing ri ci with
  | nil => rfl
  | cons e pairs ih =>
    rw [List.foldl_cons]
    have hstep : rewireStep rng nn p ⟨g, ri, ci⟩ e = ⟨g, ri + 1, ci⟩ := by
      unfold rewireStep
      dsimp only
      rw [if_neg (h ri le_rfl)]
    rw [hstep]
    exact ih (ri + 1) ci (fun i hi => h i (by omega))

theorem latticePairs_decomp : latticePairs 5000 10 =
    (0, 1) :: (((List.range 4999).map Nat.succ).map (fun u => (u, (u + 1) % 5000)) ++
      (List.range' 2 4).flatMap (fun j => (List.range 5000).map (fun u => (u, (u + j) % 5000)))) := by
  unfold latticePairs
  simp only [show List.range' 1 (10 / 2) = 1 :: List.range' 2 4 from rfl, List.flatMap_cons]
  nth_rewrite 1 [show List.range 5000 = 0 :: (List.range 4999).map Nat.succ from
    List.range_succ_eq_map 4999]
  rw [List.map_cons, List.cons_append]

theorem mem_addEdgeFold (pairs : List Edge) (g : List Edge) (x : Edge)
    (h : x ∈ pairs.foldl (fun g2 e => addEdge g2 e.1 e.2) g) : x ∈ g ∨ x ∈ pairs := by
  induction pairs generalizing g with
  | nil => exact Or.inl h
  | cons e pairs ih =>
    rw [List.foldl_cons] at h
    rcases ih _ h with h1 | h2
    · rcases mem_addEdge _ _ _ _ h1 with h3 | h4
      · exact Or.inl h3
      · right
        rw [h4, Prod.mk.eta]
        exact List.mem_cons_self _ _
    · exact Or.inr (List.mem_cons_of_mem _ h2)

theorem mem_addEdgeFold_of_mem (pairs : List Edge) (g : List Edge) (x : Edge) (h : x ∈ g) :
    x ∈ pairs.foldl (fun g2 e => addEdge g2 e.1 e.2) g := by
  induction pairs generalizing g with
  | nil => exact h
  | cons e pairs ih =>
    rw [List.foldl_cons]
    exact ih _ (mem_addEdge_of_mem _ _ _ _ h)

theorem mem_lattice_01 : ((0, 1) : Edge) ∈ lattice 5000 10 := by
  unfold lattice
  rw [latticePairs_decomp, List.foldl_cons]
  apply mem_addEdgeFold_of_mem
  show ((0, 1) : Edge) ∈ addEdge [] 0 1
  rw [show addEdge [] 0 1 = [(0, 1)] from rfl]
  exact List.mem_singleton.2 rfl

theorem mem_latticePairs_shape (e : Edge) (h : e ∈ latticePairs 5000 10) :
    ∃ j u, 1 ≤ j ∧ j ≤ 5 ∧ u < 5000 ∧ e = (u, (u + j) % 5000) := by
  unfold latticePairs at h
  obtain ⟨j, hj, he⟩ := List.mem_flatMap.1 h
  obtain ⟨u, hu, hue⟩ := List.mem_map.1 he
  rw [show (10 : Nat) / 2 = 5 from rfl] at hj
  have hj2 := List.mem_range'_1.1 hj
  exact ⟨j, u, hj2.1, by omega, List.mem_range.1 hu, hue.symm⟩

theorem not_hasEdge_lattice_0_2500 : hasEdge (lattice 5000 10) 0 2500 = false := by
  rw [hasEdge_eq_false]
  constructor
  · intro hmem
    have hsub : ((0 : Nat), (2500 : Nat)) ∈ latticePairs 5000 10 := by
      rcases mem_addEdgeFold _ _ _ hmem with h1 | h2
      · exact absurd h1 (List.not_mem_nil _)
      · exact h2
    obtain ⟨j, u, hj1, hj5, hu, hee⟩ := mem_latticePairs_shape _ hsub
    injection hee with h1 h2
    subst h1
    rw [Nat.mod_eq_of_lt (by omega)] at h2
    omega
  · intro hmem
    have hsub : ((2500 : Nat), (0 : Nat)) ∈ latticePairs 5000 10 := by
      rcases mem_addEdgeFold _ _ _ hmem with h1 | h2
      · exact absurd h1 (List.not_mem_nil _)
      · exact h2
    obtain ⟨j, u, hj1, hj5, hu, hee⟩ := mem_latticePairs_shape _ hsub
    injection hee with h1 h2
    subst h1
    rw [Nat.mod_eq_of_lt (by omega)] at h2
    omega

theorem rewireWhile_accept (rng : PyRng) (g : List Edge) (nn u fuel w ci : Nat)
    (hfuel : fuel ≠ 0) (h : ¬(w = u ∨ hasEdge g u w = true)) :
    rewireWhile rng g nn u fuel w ci = (some w, ci) := by
  cases fuel with
  | zero => exact absurd rfl hfuel
  | succ f =>
    simp only [rewireWhile]
    rw [if_neg h]

theorem wsB_cond : ¬(pyRngB.choices 0 = 0 ∨ hasEdge (lattice 5000 10) 0 (pyRngB.choices 0) = true) := by
  rw [show pyRngB.choices 0 = 2500 from rfl]
  rintro (h1 | h2)
  · exact absurd h1 (by norm_num)
  · rw [not_hasEdge_lattice_0_2500] at h2
    exact absurd h2 (by simp)

theorem wsB_while : rewireWhile pyRngB (lattice 5000 10) 5000 0 5000 (pyRngB.choices 0) (0 + 1) =
    (some 2500, 1) := by
  have hacc := rewireWhile_accept pyRngB (lattice 5000 10) 5000 0 5000 (pyRngB.choices 0)
    (0 + 1) (by norm_num) wsB_cond
  rw [hacc]
  rfl

theorem rewireStep_rewires (rng : PyRng) (nn : Nat) (p : ℚ) (g : List Edge) (ri ci u v : Nat)
    (hr : rng.randoms ri < p) (w2 ci2 : Nat)
    (hw : rewireWhile rng g nn u nn (rng.choices ci) (ci + 1) = (some w2, ci2)) :
    rewireStep rng nn p ⟨g, ri, ci⟩ (u, v) = ⟨addEdge (removeEdge g u v) u w2, ri + 1, ci2⟩ := by
  unfold rewireStep
  dsimp only
  rw [if_pos hr, hw]

theorem wsB_a : rewireStep pyRngB 5000 (3/10) ⟨lattice 5000 10, 0, 0⟩ (0, 1) =
    ⟨addEdge (removeEdge (lattice 5000 10) 0 1) 0 2500, 1, 1⟩ :=
  rewireStep_rewires pyRngB 5000 (3/10) (lattice 5000 10) 0 0 0 1
    (by norm_num [pyRngB]) 2500 1 wsB_while

theorem wsB_b (tail : List Edge) :
    ((tail.foldl (rewireStep pyRngB 5000 (3/10))
      ⟨addEdge (removeEdge (lattice 5000 10) 0 1) 0 2500, 1, 1⟩).graph) =
    addEdge (removeEdge (lattice 5000 10) 0 1) 0 2500 :=
  rewire_fold_skip pyRngB 5000 (3/10) tail _ 1 1
    (fun i hi => by
      simp only [pyRngB]
      rw [if_neg (by omega)]
      norm_num)

def wsTail : List Edge :=
  ((List.range 4999).map Nat.succ).map (fun u => (u, (u + 1) % 5000)) ++
    (List.range' 2 4).flatMap (fun j => (List.range 5000).map (fun u => (u, (u + j) % 5000)))

theorem latticePairs_decomp2 : latticePairs 5000 10 = (0, 1) :: wsTail :=
  latticePairs_decomp

theorem foldl_cons_graph (f : WsState → Edge → WsState) (b : WsState) (a : Edge)
    (l : List Edge) : (((a :: l).foldl f b).graph) = ((l.foldl f (f b a)).graph) := rfl

theorem watts_eq (nn k : Nat) (p : ℚ) (rng : PyRng) : watts_strogatz_graph nn k p rng =
    (((latticePairs nn k).foldl (rewireStep rng nn p) ⟨lattice nn k, 0, 0⟩).graph) := rfl

/-- Under `pyRngA` the rewiring pass changes nothing: the graph is the plain
ring lattice. -/
theorem wsA : watts_strogatz_graph 5000 10 (3/10) pyRngA = lattice 5000 10 :=
  (watts_eq 5000 10 (3/10) pyRngA).trans
    (rewire_fold_skip pyRngA 5000 (3/10) (latticePairs 5000 10) (lattice 5000 10) 0 0
      (fun i _ => by
        simp only [pyRngA]
        norm_num))

theorem wsB_c1 : (((latticePairs 5000 10).foldl (rewireStep pyRngB 5000 (3/10))
      ⟨lattice 5000 10, 0, 0⟩).graph) =
    ((((0, 1) :: wsTail).foldl (rewireStep pyRngB 5000 (3/10))
      ⟨lattice 5000 10, 0, 0⟩).graph) :=
  congrArg (fun l => ((List.foldl (rewireStep pyRngB 5000 (3/10))
    ⟨lattice 5000 10, 0, 0⟩ l).graph)) latticePairs_decomp2

theorem wsB_c : watts_strogatz_graph 5000 10 (3/10) pyRngB =
    ((wsTail.foldl (rewireStep pyRngB 5000 (3/10))
      (rewireStep pyRngB 5000 (3/10) ⟨lattice 5000 10, 0, 0⟩ (0, 1))).graph) :=
  (watts_eq 5000 10 (3/10) pyRngB).trans (wsB_c1.trans (foldl_cons_graph _ _ _ _))

theorem wsB_d : ((wsTail.foldl (rewireStep pyRngB 5000 (3/10))
      (rewireStep pyRngB 5000 (3/10) ⟨lattice 5000 10, 0, 0⟩ (0, 1))).graph) =
    ((wsTail.foldl (rewireStep pyRngB 5000 (3/10))
      (⟨addEdge (removeEdge (lattice 5000 10) 0 1) 0 2500, 1, 1⟩ : WsState)).graph) :=
  congrArg (fun s => ((wsTail.foldl (rewireStep pyRngB 5000 (3/10)) s).graph)) wsB_a

/-- Under `pyRngB` exactly the first lattice pair is rewired: the edge (0, 1)
is removed and (0, 2500) added. -/
theorem wsB : watts_strogatz_graph 5000 10 (3/10) pyRngB =
    addEdge (removeEdge (lattice 5000 10) 0 1) 0 2500 :=
  wsB_c.trans (wsB_d.trans (wsB_b wsTail))

theorem mem_addSelfLoops_of_mem (g : List Edge) (nn : Nat) (probs : Nat → ℚ) (x : Edge)
    (h : x ∈ g) : x ∈ addSelfLoops g nn probs := by
  unfold addSelfLoops
  induction List.range nn generalizing g with
  | nil => exact h
  | cons i l ih =>
    rw [List.foldl_cons]
    apply ih
    split
    · exact mem_addEdge_of_mem _ _ _ _ h
    · exact h

theorem not_mem_addSelfLoops (g : List Edge) (nn : Nat) (probs : Nat → ℚ) (a b : Nat)
    (hab : a ≠ b) (h : (a, b) ∉ g) : (a, b) ∉ addSelfLoops g nn probs := by
  unfold addSelfLoops
  induction List.range nn generalizing g with
  | nil => exact h
  | cons i l ih =>
    rw [List.foldl_cons]
    apply ih
    split
    · intro hmem
      rcases mem_addEdge _ _ _ _ hmem with h1 | h2
      · exact h h1
      · injection h2 with h3 h4
        omega
    · exact h

theorem not_mem_B :
    ((0 : Nat), (1 : Nat)) ∉ addEdge (removeEdge (lattice 5000 10) 0 1) 0 2500 := by
  intro hmem
  rcases mem_addEdge _ _ _ _ hmem with h1 | h2
  · obtain ⟨-, hfilt⟩ := List.mem_filter.1 h1
    simp [sameEdge] at hfilt
  · injection h2 with h3 h4
    exact absurd h4 (by norm_num)

set_option maxRecDepth 8000 in
/-- The agents document of a 2b run, spelled out. -/
theorem agentsOut_spec (inp : NpInputs) (py : PyRng) :
    (generateScenario2b inp py).agentsOut = (List.range N_AGENTS).map (fun j2 =>
      Agent.mk (agentUuidAt j2)
        (friendsOf (weightedEdges (network2b py inp.selfProbs) inp.wdraws) j2)
        (agentDeltas include_beliefs_2b (inp.deltaDraws j2))
        [(0, agentActivations include_beliefs_2b (inp.actCoins j2) (inp.actDraws j2)
          (inp.overrideCoins j2) (inp.overrideDraws j2))]
        [(0, behaviourUuidAt
          ((choose_initial_actions
            ((List.range N_AGENTS).map (fun j3 =>
              activationRowOf (agentActivations include_beliefs_2b (inp.actCoins j3)
                (inp.actDraws j3) (inp.overrideCoins j3) (inp.overrideDraws j3))
                include_beliefs_2b))
            (selectRows (prs_select_mat (prsDoc include_beliefs_2b inp.prsDraws))
              include_beliefs_2b)).getD j2 0))]) := rfl

/-- C3 (code bug): two runs of the full 2b pipeline on the SAME numpy-derived
streams (the same seed and scenario id) but different states of Python's
unseeded `random` module produce different agents documents, so the output is
not byte-for-byte reproducible from the numpy seed alone: under `pyRngA` the
graph keeps the lattice edge (0, 1), under `pyRngB` that edge is rewired
away, and agent 0's friends mapping differs. -/
theorem c3_not_reproducible :
    generateScenario2b zeroNpInputs pyRngA ≠ generateScenario2b zeroNpInputs pyRngB := by
  intro heq
  have hfr : (generateScenario2b zeroNpInputs pyRngA).agentsOut =
      (generateScenario2b zeroNpInputs pyRngB).agentsOut := by rw [heq]
  rw [agentsOut_spec, agentsOut_spec] at hfr
  have hfr0 := congrArg (fun l => (l.getD 0 (Agent.mk noUuid [] [] [] [])).friends) hfr
  dsimp only at hfr0
  rw [getD_range_map N_AGENTS 0 _ _ (by norm_num [N_AGENTS]),
    getD_range_map N_AGENTS 0 _ _ (by norm_num [N_AGENTS])] at hfr0
  dsimp only at hfr0
  have hA : hasKey (friendsOf (weightedEdges (network2b pyRngA zeroNpInputs.selfProbs)
      zeroNpInputs.wdraws) 0) (agentUuidAt 1) = true := by
    rw [hasKey_friendsOf]
    unfold network2b N_AGENTS
    rw [wsA]
    exact mem_addSelfLoops_of_mem _ _ _ _ mem_lattice_01
  have hB : hasKey (friendsOf (weightedEdges (network2b pyRngB zeroNpInputs.selfProbs)
      zeroNpInputs.wdraws) 0) (agentUuidAt 1) = false := by
    rw [Bool.eq_false_iff, Ne, hasKey_friendsOf]
    unfold network2b N_AGENTS
    rw [wsB]
    exact not_mem_addSelfLoops _ _ _ 0 1 (by norm_num) not_mem_B
  rw [hfr0] at hA
  rw [hA] at hB
  exact absurd hB (by simp)

end ConfigGen
